import Mathlib

/-!
Shallow embedding of `opensurfcontrol/mme_client.py` (Open5GS MME log parser).

Lines are lists of characters.  Each Python regex is embedded as an anchored
matcher (`match...At`) plus the leftmost-`search` combinator `searchL`, which
tries the anchored matcher at every suffix of the line, left to right, exactly
as `re.Pattern.search` finds the leftmost match.
-/

set_option maxRecDepth 4000

namespace MME

abbrev Line := List Char

/-- Python `\s` for the ASCII characters that occur in log text. -/
def isSpaceCh (c : Char) : Bool :=
  c == ' ' || c == '\t' || c == '\n' || c == '\r' || c == '\x0b' || c == '\x0c'

/-- Python `\w` restricted to ASCII: letters, digits, underscore. -/
def isWordCh (c : Char) : Bool :=
  c.isAlpha || c.isDigit || c == '_'

/-- Match a literal character sequence, returning the rest of the line. -/
def dropLit : List Char → Line → Option Line
  | [], s => some s
  | _ :: _, [] => none
  | p :: ps, c :: cs => if p == c then dropLit ps cs else none

/-- `\d{n}`: exactly `n` digit characters. -/
def digitsN : Nat → Line → Option (Line × Line)
  | 0, s => some ([], s)
  | _ + 1, [] => none
  | n + 1, c :: cs =>
    if c.isDigit then (digitsN n cs).map (fun r => (c :: r.1, r.2)) else none

/-- `\d+` followed by a non-digit (or end): the maximal nonempty digit run. -/
def digits1 (s : Line) : Option (Line × Line) :=
  let d := s.takeWhile Char.isDigit
  if d.isEmpty then none else some (d, s.dropWhile Char.isDigit)

/-- `\w+` before a non-word character: the maximal nonempty word-char run. -/
def wordChars1 (s : Line) : Option (Line × Line) :=
  let d := s.takeWhile isWordCh
  if d.isEmpty then none else some (d, s.dropWhile isWordCh)

/-- `\s*`. -/
def skipWs (s : Line) : Line := s.dropWhile isSpaceCh

/-- `\s+`. -/
def ws1 : Line → Option Line
  | [] => none
  | c :: cs => if isSpaceCh c then some (cs.dropWhile isSpaceCh) else none

def natOfDigits (d : Line) : Nat :=
  d.foldl (fun a c => 10 * a + (c.toNat - 48)) 0

/-- `re.search` semantics: try the anchored matcher at each start position,
left to right. -/
def searchL {α : Type} (f : Line → Option α) : Line → Option α
  | [] => f []
  | c :: cs =>
    match f (c :: cs) with
    | some r => some r
    | none => searchL f cs

/-- The group `(\d+\.\d+\.\d+\.\d+)`; the captured text and the rest. -/
def ipGroup (s : Line) : Option (Line × Line) := do
  let (a, s) ← digits1 s
  let s ← dropLit ['.'] s
  let (b, s) ← digits1 s
  let s ← dropLit ['.'] s
  let (c, s) ← digits1 s
  let s ← dropLit ['.'] s
  let (d, s) ← digits1 s
  some (a ++ '.' :: b ++ '.' :: c ++ '.' :: d, s)

/-- `S1AP_ACCEPTED_PATTERN`: `eNB-S1 accepted\[(ip)\]:(\d+)`. -/
def matchAcceptedAt (s : Line) : Option (Line × Nat) := do
  let s ← dropLit "eNB-S1 accepted[".data s
  let (ip, s) ← ipGroup s
  let s ← dropLit "]:".data s
  let (p, _) ← digits1 s
  some (ip, natOfDigits p)

/-- `SCTP_STREAMS_PATTERN`: `eNB-S1\[(ip)\] max_num_of_ostreams\s*:\s*(\d+)`. -/
def matchStreamsAt (s : Line) : Option (Line × Nat) := do
  let s ← dropLit "eNB-S1[".data s
  let (ip, s) ← ipGroup s
  let s ← dropLit "] max_num_of_ostreams".data s
  let s := skipWs s
  let s ← dropLit ":".data s
  let s := skipWs s
  let (n, _) ← digits1 s
  some (ip, natOfDigits n)

/-- `S1AP_REFUSED_PATTERN`: `eNB-S1\[(ip)\] connection refused`. -/
def matchRefusedAt (s : Line) : Option Line := do
  let s ← dropLit "eNB-S1[".data s
  let (ip, s) ← ipGroup s
  let _ ← dropLit "] connection refused".data s
  some ip

/-- A `MM/DD HH:MM:SS.mmm` timestamp token (year-less, as in the log). -/
structure Ts where
  mon : Nat
  day : Nat
  hour : Nat
  minute : Nat
  sec : Nat
  ms : Nat
deriving DecidableEq

/-- `TIMESTAMP_PATTERN`: `(\d{2}/\d{2} \d{2}:\d{2}:\d{2}\.\d{3})`. -/
def matchTsAt (s : Line) : Option Ts := do
  let (mo, s) ← digitsN 2 s
  let s ← dropLit "/".data s
  let (d, s) ← digitsN 2 s
  let s ← dropLit " ".data s
  let (h, s) ← digitsN 2 s
  let s ← dropLit ":".data s
  let (mi, s) ← digitsN 2 s
  let s ← dropLit ":".data s
  let (se, s) ← digitsN 2 s
  let s ← dropLit ".".data s
  let (msv, _) ← digitsN 3 s
  some ⟨natOfDigits mo, natOfDigits d, natOfDigits h,
        natOfDigits mi, natOfDigits se, natOfDigits msv⟩

/-- Month lengths used by `datetime.strptime` with its default year 1900. -/
def daysInMonth1900 : Nat → Nat
  | 1 => 31 | 2 => 28 | 3 => 31 | 4 => 30 | 5 => 31 | 6 => 30
  | 7 => 31 | 8 => 31 | 9 => 30 | 10 => 31 | 11 => 30 | 12 => 31
  | _ => 0

/-- The field ranges `datetime.strptime("%m/%d %H:%M:%S.%f")` accepts; out of
range raises `ValueError`, which `_extract_timestamp` turns into `None`. -/
def validTs (t : Ts) : Bool :=
  decide (1 ≤ t.mon ∧ t.mon ≤ 12 ∧ 1 ≤ t.day ∧ t.day ≤ daysInMonth1900 t.mon ∧
          t.hour ≤ 23 ∧ t.minute ≤ 59 ∧ t.sec ≤ 59)

/-- `MMELogParser._extract_timestamp`: first regex match, `None` on
`ValueError`. -/
def extractTimestamp (l : Line) : Option Ts :=
  match searchL matchTsAt l with
  | some t => if validTs t then some t else none
  | none => none

/-! ### Insertion-ordered dictionaries (Python `dict`) and sets -/

abbrev AssocL (α : Type) := List (Line × α)

/-- `d[k] = v`: replace in place if the key exists, else append. -/
def updD {α : Type} (k : Line) (v : α) : AssocL α → AssocL α
  | [] => [(k, v)]
  | (k', v') :: t => if k = k' then (k, v) :: t else (k', v') :: updD k v t

/-- `d.get(k)`. -/
def lookupD {α : Type} (k : Line) : AssocL α → Option α
  | [] => none
  | (k', v') :: t => if k = k' then some v' else lookupD k t

/-- In-place mutation of the value at `k`, when present. -/
def modifyD {α : Type} (k : Line) (f : α → α) : AssocL α → AssocL α
  | [] => []
  | (k', v') :: t => if k = k' then (k', f v') :: t else (k', v') :: modifyD k f t

/-- `x in s` for a set of addresses. -/
def memS (x : Line) : List Line → Bool
  | [] => false
  | y :: t => if x = y then true else memS x t

/-- `set.add`. -/
def insS (x : Line) (s : List Line) : List Line :=
  if memS x s then s else s ++ [x]

/-- `set.discard`. -/
def delS (x : Line) : List Line → List Line
  | [] => []
  | y :: t => if y = x then delS x t else y :: delS x t

/-! ### `S1APConnection` and `parse_logs` -/

structure S1APConnection where
  enb_id : Line
  ip_address : Line
  port : Nat
  connected_at : Option Ts
  is_connected : Bool
  sctp_streams : Option Nat
deriving DecidableEq

/-- `f"eNB-{ip.replace('.', '-')}"`. -/
def enbIdOf (ip : Line) : Line :=
  "eNB-".data ++ ip.map (fun c => if c == '.' then '-' else c)

structure ConnState where
  connections : AssocL S1APConnection
  refused : List Line
deriving DecidableEq

def initConnState : ConnState := ⟨[], []⟩

/-- The `accepted_match` block of `parse_logs`. -/
def stepAccept (st : ConnState) (l : Line) : ConnState :=
  match searchL matchAcceptedAt l with
  | some (ip, port) =>
      { connections := updD ip
          { enb_id := enbIdOf ip, ip_address := ip, port := port,
            connected_at := extractTimestamp l, is_connected := true,
            sctp_streams := none } st.connections,
        refused := delS ip st.refused }
  | none => st

/-- The `streams_match` block of `parse_logs`. -/
def stepStreams (st : ConnState) (l : Line) : ConnState :=
  match searchL matchStreamsAt l with
  | some (ip, n) =>
      if (lookupD ip st.connections).isSome then
        { st with connections :=
            modifyD ip (fun c => { c with sctp_streams := some n }) st.connections }
      else st
  | none => st

/-- The `refused_match` block of `parse_logs`. -/
def stepRefused (st : ConnState) (l : Line) : ConnState :=
  match searchL matchRefusedAt l with
  | some ip =>
      { connections := modifyD ip (fun c => { c with is_connected := false }) st.connections,
        refused := insS ip st.refused }
  | none => st

/-- One loop iteration of `parse_logs` (the three blocks, in program order). -/
def stepConn (st : ConnState) (l : Line) : ConnState :=
  stepRefused (stepStreams (stepAccept st l) l) l

/-- The final dictionary comprehension of `parse_logs`. -/
def connResult (st : ConnState) : AssocL S1APConnection :=
  st.connections.filter (fun p => p.2.is_connected && !(memS p.1 st.refused))

/-! ### The log file and `_read_log_lines` -/

/-- The observable states of the log file: absent (or not a regular file),
present but failing to open, or readable with the given lines.  `Path.exists`
succeeds on an unreadable-but-statable file, so only `missing` makes
`is_available` false. -/
inductive FileSt
  | missing
  | unreadable
  | content (lines : List Line)

/-- `MMELogParser.is_available`. -/
def is_available : FileSt → Bool
  | .missing => false
  | .unreadable => true
  | .content _ => true

/-- `MMELogParser._read_log_lines`: last `n` lines, `[]` when the file is
missing or the read raises. -/
def readLogLines (n : Nat) : FileSt → List Line
  | .missing => []
  | .unreadable => []
  | .content ls => if ls.length > n then ls.drop (ls.length - n) else ls

/-- The literal default of `parse_logs(lines_to_read: int = 2000)`. -/
def PARSE_LOGS_DEFAULT : Nat := 2000

/-- The literal default of `parse_ue_sessions(lines_to_read: int = 2000)`. -/
def PARSE_UE_SESSIONS_DEFAULT : Nat := 2000

/-- The body of `parse_logs` applied to a given window of lines. -/
def parseLogsWindow (lines : List Line) : AssocL S1APConnection :=
  if lines = [] then []
  else connResult (lines.foldl stepConn initConnState)

/-- `MMELogParser.parse_logs`. -/
def parse_logs (fs : FileSt) (lines_to_read : Nat) : AssocL S1APConnection :=
  parseLogsWindow (readLogLines lines_to_read fs)

/-- `MMELogParser.get_connected_enodebs` (the connection objects backing the
returned dictionaries). -/
def get_connected_enodebs (fs : FileSt) : List S1APConnection :=
  ((parse_logs fs PARSE_LOGS_DEFAULT).filter (fun p => p.2.is_connected)).map Prod.snd

/-- `MMELogParser.get_enb_count`. -/
def get_enb_count (fs : FileSt) : Nat :=
  ((parse_logs fs PARSE_LOGS_DEFAULT).filter (fun p => p.2.is_connected)).length

/-! ### `UESession` and `parse_ue_sessions` -/

inductive UEState
  | attaching
  | attached
  | detached
deriving DecidableEq

structure UESession where
  imsi : Line
  apn : Line
  enb_ue_s1ap_id : Option Nat
  mme_ue_s1ap_id : Option Nat
  attached_at : Option Ts
  state : UEState
deriving DecidableEq

/-- `UESession(imsi=imsi)` with the dataclass defaults. -/
def mkUESession (imsi : Line) : UESession :=
  { imsi := imsi, apn := "internet".data, enb_ue_s1ap_id := none,
    mme_ue_s1ap_id := none, attached_at := none, state := .attaching }

/-- `ATTACH_EVENT_PATTERN` group 2. -/
inductive AttachEv
  | req
  | comp
deriving DecidableEq

/-- `ATTACH_EVENT_PATTERN`: `\[(\d{15})\]\s+(Attach request|Attach complete)`. -/
def matchAttachAt (s : Line) : Option (Line × AttachEv) := do
  let s ← dropLit "[".data s
  let (imsi, s) ← digitsN 15 s
  let s ← dropLit "]".data s
  let s ← ws1 s
  match dropLit "Attach request".data s with
  | some _ => some (imsi, .req)
  | none => do
      let _ ← dropLit "Attach complete".data s
      some (imsi, .comp)

/-- `DETACH_EVENT_PATTERN`: `\[(\d{15})\]\s+Detach request`. -/
def matchDetachAt (s : Line) : Option Line := do
  let s ← dropLit "[".data s
  let (imsi, s) ← digitsN 15 s
  let s ← dropLit "]".data s
  let s ← ws1 s
  let _ ← dropLit "Detach request".data s
  some imsi

/-- `IMSI_PATTERN`: `IMSI\[(\d{15})\]`. -/
def matchImsiAt (s : Line) : Option Line := do
  let s ← dropLit "IMSI[".data s
  let (imsi, s) ← digitsN 15 s
  let _ ← dropLit "]".data s
  some imsi

/-- `UE_CONTEXT_PATTERN`: `ENB_UE_S1AP_ID\[(\d+)\]\s+MME_UE_S1AP_ID\[(\d+)\]`. -/
def matchCtxAt (s : Line) : Option (Nat × Nat) := do
  let s ← dropLit "ENB_UE_S1AP_ID[".data s
  let (e, s) ← digits1 s
  let s ← dropLit "]".data s
  let s ← ws1 s
  let s ← dropLit "MME_UE_S1AP_ID[".data s
  let (m, s) ← digits1 s
  let _ ← dropLit "]".data s
  some (natOfDigits e, natOfDigits m)

/-- `SESSION_REMOVED_PATTERN`:
`Removed Session: UE IMSI:\[(\d{15})\] APN:\[(\w+)\]`. -/
def matchRemovedAt (s : Line) : Option (Line × Line) := do
  let s ← dropLit "Removed Session: UE IMSI:[".data s
  let (imsi, s) ← digitsN 15 s
  let s ← dropLit "] APN:[".data s
  let (apn, s) ← wordChars1 s
  let _ ← dropLit "]".data s
  some (imsi, apn)

/-- `ENB_UE_COUNT_PATTERN`:
`\[(Added|Removed)\] Number of eNB-UEs is now (\d+)`; only group 2 is used. -/
def matchEnbUeCountAt (s : Line) : Option Nat := do
  let s ← dropLit "[".data s
  let s ← match dropLit "Added".data s with
          | some s' => pure s'
          | none => dropLit "Removed".data s
  let s ← dropLit "] Number of eNB-UEs is now ".data s
  let (n, _) ← digits1 s
  some (natOfDigits n)

/-- `MME_SESSION_COUNT_PATTERN`:
`\[(Added|Removed)\] Number of MME-Sessions is now (\d+)`. -/
def matchMmeSessCountAt (s : Line) : Option Nat := do
  let s ← dropLit "[".data s
  let s ← match dropLit "Added".data s with
          | some s' => pure s'
          | none => dropLit "Removed".data s
  let s ← dropLit "] Number of MME-Sessions is now ".data s
  let (n, _) ← digits1 s
  some (natOfDigits n)

/-- The local state of the `parse_ue_sessions` loop. -/
structure SessState where
  sessions : AssocL UESession
  pending : AssocL (Nat × Nat)
  lastEnbUe : Nat
  lastSess : Nat
deriving DecidableEq

def initSessState : SessState := ⟨[], [], 0, 0⟩

/-- The `context_match and imsi_match` block. -/
def stepCtx (st : SessState) (l : Line) : SessState :=
  match searchL matchCtxAt l, searchL matchImsiAt l with
  | some em, some imsi => { st with pending := updD imsi em st.pending }
  | _, _ => st

/-- `if imsi not in sessions: sessions[imsi] = UESession(imsi=imsi)`. -/
def attachCreate (ss : AssocL UESession) (imsi : Line) : AssocL UESession :=
  if (lookupD imsi ss).isSome then ss else updD imsi (mkUESession imsi) ss

/-- The `event_type` branch: set state (and attach time for a complete). -/
def attachMark (l : Line) (imsi : Line) (ev : AttachEv) (ss : AssocL UESession) :
    AssocL UESession :=
  match ev with
  | .req => modifyD imsi (fun s => { s with state := .attaching }) ss
  | .comp => modifyD imsi (fun s => { s with state := .attached, attached_at := extractTimestamp l }) ss

/-- `if imsi in pending_context: ...` — copy the context onto the session;
the pending entry itself is left in place. -/
def attachCtx (pending : AssocL (Nat × Nat)) (imsi : Line) (ss : AssocL UESession) :
    AssocL UESession :=
  match lookupD imsi pending with
  | some (e, m) => modifyD imsi (fun s => { s with enb_ue_s1ap_id := some e, mme_ue_s1ap_id := some m }) ss
  | none => ss

/-- The `attach_match` block: create the session if absent, update its state,
then copy any pending context onto it (the pending entry is not removed). -/
def stepAttach (st : SessState) (l : Line) : SessState :=
  match searchL matchAttachAt l with
  | some (imsi, ev) =>
      { st with sessions := attachCtx st.pending imsi (attachMark l imsi ev (attachCreate st.sessions imsi)) }
  | none => st

/-- The `detach_match` block. -/
def stepDetach (st : SessState) (l : Line) : SessState :=
  match searchL matchDetachAt l with
  | some imsi =>
      { st with sessions := modifyD imsi (fun s => { s with state := .detached }) st.sessions }
  | none => st

/-- The `session_removed_match` block. -/
def stepRemoved (st : SessState) (l : Line) : SessState :=
  match searchL matchRemovedAt l with
  | some (imsi, apn) =>
      if (lookupD imsi st.sessions).isSome then
        let ss := modifyD imsi (fun s => { s with apn := apn, state := .detached })
          st.sessions
        { st with sessions := ss }
      else st
  | none => st

/-- The two counter blocks. -/
def stepCounts (st : SessState) (l : Line) : SessState :=
  let st := match searchL matchEnbUeCountAt l with
    | some n => { st with lastEnbUe := n }
    | none => st
  match searchL matchMmeSessCountAt l with
  | some n => { st with lastSess := n }
  | none => st

/-- One loop iteration of `parse_ue_sessions`, blocks in program order. -/
def stepSess (st : SessState) (l : Line) : SessState :=
  stepCounts (stepRemoved (stepDetach (stepAttach (stepCtx st l) l) l) l) l

/-- The whole loop of `parse_ue_sessions` over a window. -/
def foldSess (lines : List Line) : SessState :=
  lines.foldl stepSess initSessState

def isAttachedB (s : UESession) : Bool :=
  match s.state with
  | .attached => true
  | _ => false

/-- The mutable parser fields that outlive a call
(`_enb_ue_count`, `_mme_session_count`). -/
structure ParserSt where
  enbUeCount : Nat
  mmeSessionCount : Nat
deriving DecidableEq

/-- `MMELogParser.__init__`. -/
def initParser : ParserSt := ⟨0, 0⟩

/-- The attached-only dictionary `parse_ue_sessions` returns for a given
window of lines. -/
def parseUeWindow (lines : List Line) : AssocL UESession :=
  if lines = [] then []
  else (foldSess lines).sessions.filter (fun p => isAttachedB p.2)

/-- `MMELogParser.parse_ue_sessions`: the returned attached-only dictionary and
the updated stored counters.  On an empty read it returns `{}` before the
counters are written. -/
def parse_ue_sessions (st : ParserSt) (fs : FileSt) (lines_to_read : Nat) :
    AssocL UESession × ParserSt :=
  if readLogLines lines_to_read fs = [] then ([], st)
  else
    ((foldSess (readLogLines lines_to_read fs)).sessions.filter (fun p => isAttachedB p.2),
     { enbUeCount := (foldSess (readLogLines lines_to_read fs)).lastEnbUe,
       mmeSessionCount := (foldSess (readLogLines lines_to_read fs)).lastSess })

/-- `MMELogParser.get_ue_sessions` (the session objects backing the dicts). -/
def get_ue_sessions (st : ParserSt) (fs : FileSt) : List UESession × ParserSt :=
  let r := parse_ue_sessions st fs PARSE_UE_SESSIONS_DEFAULT
  (r.1.map Prod.snd, r.2)

/-- `MMELogParser.get_ue_count`. -/
def get_ue_count (st : ParserSt) (fs : FileSt) : Nat × ParserSt :=
  let r := parse_ue_sessions st fs PARSE_UE_SESSIONS_DEFAULT
  (r.2.enbUeCount, r.2)

/-- `MMELogParser.get_session_count`. -/
def get_session_count (st : ParserSt) (fs : FileSt) : Nat × ParserSt :=
  let r := parse_ue_sessions st fs PARSE_UE_SESSIONS_DEFAULT
  (r.2.mmeSessionCount, r.2)

/-! ## Dictionary and set lemmas -/

theorem lookupD_updD_self {α : Type} (k : Line) (v : α) (ss : AssocL α) :
    lookupD k (updD k v ss) = some v := by
  induction ss with
  | nil => simp [updD, lookupD]
  | cons h t ih =>
    obtain ⟨k', v'⟩ := h
    by_cases hk : k = k'
    · simp [updD, hk, lookupD]
    · simp [updD, hk, lookupD, ih]

theorem lookupD_updD_ne {α : Type} {k a : Line} (h : a ≠ k) (v : α) (ss : AssocL α) :
    lookupD a (updD k v ss) = lookupD a ss := by
  induction ss with
  | nil => simp [updD, lookupD, h]
  | cons hd t ih =>
    obtain ⟨k', v'⟩ := hd
    by_cases hk : k = k'
    · subst hk
      simp [updD, lookupD, h, ih]
    · simp [updD, hk, lookupD, ih]

theorem lookupD_modifyD_self {α : Type} (k : Line) (f : α → α) (ss : AssocL α) :
    lookupD k (modifyD k f ss) = (lookupD k ss).map f := by
  induction ss with
  | nil => simp [modifyD, lookupD]
  | cons hd t ih =>
    obtain ⟨k', v'⟩ := hd
    by_cases hk : k = k'
    · simp [modifyD, hk, lookupD]
    · simp [modifyD, hk, lookupD, ih]

theorem lookupD_modifyD_ne {α : Type} {k a : Line} (h : a ≠ k) (f : α → α) (ss : AssocL α) :
    lookupD a (modifyD k f ss) = lookupD a ss := by
  induction ss with
  | nil => simp [modifyD, lookupD]
  | cons hd t ih =>
    obtain ⟨k', v'⟩ := hd
    by_cases hk : k = k'
    · subst hk
      simp [modifyD, lookupD, h, ih]
    · simp [modifyD, hk, lookupD, ih]

theorem lookupD_modifyD_isSome {α : Type} (k a : Line) (f : α → α) (ss : AssocL α) :
    (lookupD a (modifyD k f ss)).isSome = (lookupD a ss).isSome := by
  by_cases h : a = k
  · subst h
    rw [lookupD_modifyD_self]
    cases lookupD a ss <;> simp
  · rw [lookupD_modifyD_ne h]

theorem lookupD_updD_isSome_of {α : Type} {k a : Line} {v : α} {ss : AssocL α}
    (h : (lookupD a ss).isSome = true) : (lookupD a (updD k v ss)).isSome = true := by
  by_cases hk : a = k
  · subst hk
    rw [lookupD_updD_self]
    rfl
  · rw [lookupD_updD_ne hk]
    exact h

theorem memS_append (a : Line) (s t : List Line) :
    memS a (s ++ t) = (memS a s || memS a t) := by
  induction s with
  | nil => simp [memS]
  | cons y ys ih =>
    by_cases h : a = y
    · simp [memS, h]
    · simp [memS, h, ih]

theorem memS_insS_self (x : Line) (s : List Line) : memS x (insS x s) = true := by
  unfold insS
  by_cases h : memS x s
  · simp [h]
  · simp [h, memS_append, memS]

theorem memS_insS_of_mem {a x : Line} {s : List Line} (h : memS a s = true) :
    memS a (insS x s) = true := by
  unfold insS
  by_cases hx : memS x s
  · simp [hx, h]
  · simp [hx, memS_append, h]

theorem memS_insS_ne {a x : Line} (h : a ≠ x) (s : List Line) :
    memS a (insS x s) = memS a s := by
  unfold insS
  by_cases hx : memS x s
  · simp [hx]
  · simp [hx, memS_append, memS, h]

theorem memS_delS_self (x : Line) (s : List Line) : memS x (delS x s) = false := by
  induction s with
  | nil => simp [delS, memS]
  | cons y ys ih =>
    by_cases h : y = x
    · simpa [delS, h] using ih
    · have hxy : x ≠ y := fun he => h he.symm
      simp [delS, h, memS, hxy, ih]

theorem memS_delS_ne {a x : Line} (h : a ≠ x) (s : List Line) :
    memS a (delS x s) = memS a s := by
  induction s with
  | nil => simp [delS, memS]
  | cons y ys ih =>
    by_cases hyx : y = x
    · subst hyx
      simp [delS, memS, h, ih]
    · by_cases hay : a = y
      · simp [delS, hyx, memS, hay]
      · simp [delS, hyx, memS, hay, ih]

/-! ## Lookup through `List.filter` -/

theorem lookupD_filter_of_none {α : Type} {k : Line} {p : Line × α → Bool} {ss : AssocL α}
    (h : lookupD k ss = none) : lookupD k (ss.filter p) = none := by
  induction ss with
  | nil => simp [lookupD]
  | cons hd t ih =>
    obtain ⟨k', v'⟩ := hd
    by_cases hk : k = k'
    · simp [lookupD, hk] at h
    · simp only [lookupD, if_neg hk] at h
      by_cases hp : p (k', v')
      · simp [List.filter, hp, lookupD, hk, ih h]
      · simp [List.filter, hp, ih h]

theorem lookupD_filter_of_some {α : Type} {k : Line} {v : α} {p : Line × α → Bool}
    {ss : AssocL α} (h : lookupD k ss = some v) (hp : p (k, v) = true) :
    lookupD k (ss.filter p) = some v := by
  induction ss with
  | nil => simp [lookupD] at h
  | cons hd t ih =>
    obtain ⟨k', v'⟩ := hd
    by_cases hk : k = k'
    · subst hk
      simp only [lookupD, if_pos rfl] at h
      obtain rfl : v' = v := by injection h
      simp [List.filter, hp, lookupD]
    · simp only [lookupD, if_neg hk] at h
      by_cases hpp : p (k', v')
      · simp [List.filter, hpp, lookupD, hk, ih h]
      · simp [List.filter, hpp, ih h]

theorem lookupD_filter_of_allfalse {α : Type} {k : Line} {p : Line × α → Bool}
    {ss : AssocL α} (h : ∀ v, p (k, v) = false) : lookupD k (ss.filter p) = none := by
  induction ss with
  | nil => simp [lookupD]
  | cons hd t ih =>
    obtain ⟨k', v'⟩ := hd
    by_cases hk : k = k'
    · subst hk
      simp [List.filter, h v', ih]
    · by_cases hpp : p (k', v')
      · simp [List.filter, hpp, lookupD, hk, ih]
      · simp [List.filter, hpp, ih]


/-! ## Key lists and `Nodup` -/

theorem keys_updD_of_none {α : Type} {k : Line} (v : α) {ss : AssocL α}
    (hl : lookupD k ss = none) :
    (updD k v ss).map Prod.fst = ss.map Prod.fst ++ [k] := by
  induction ss with
  | nil => simp [updD]
  | cons hd t ih =>
    obtain ⟨k', v'⟩ := hd
    by_cases hk : k = k'
    · simp [lookupD, hk] at hl
    · simp only [lookupD, if_neg hk] at hl
      simp [updD, hk, ih hl]

theorem keys_updD_of_some {α : Type} {k : Line} (v : α) {ss : AssocL α}
    (hl : lookupD k ss ≠ none) :
    (updD k v ss).map Prod.fst = ss.map Prod.fst := by
  induction ss with
  | nil => simp [lookupD] at hl
  | cons hd t ih =>
    obtain ⟨k', v'⟩ := hd
    by_cases hk : k = k'
    · subst hk
      simp [updD]
    · simp only [lookupD, if_neg hk] at hl
      simp [updD, hk, ih hl]

theorem keys_modifyD {α : Type} (k : Line) (f : α → α) (ss : AssocL α) :
    (modifyD k f ss).map Prod.fst = ss.map Prod.fst := by
  induction ss with
  | nil => simp [modifyD]
  | cons hd t ih =>
    obtain ⟨k', v'⟩ := hd
    by_cases hk : k = k'
    · simp [modifyD, hk]
    · simp [modifyD, hk, ih]

theorem lookupD_eq_none_iff {α : Type} (k : Line) (ss : AssocL α) :
    lookupD k ss = none ↔ k ∉ ss.map Prod.fst := by
  induction ss with
  | nil => simp [lookupD]
  | cons hd t ih =>
    obtain ⟨k', v'⟩ := hd
    by_cases hk : k = k'
    · subst hk
      simp only [lookupD, if_pos rfl, List.map_cons, List.mem_cons]
      constructor
      · intro h
        cases h
      · intro h
        exact absurd (Or.inl trivial) h
    · simp only [lookupD, if_neg hk, List.map_cons, List.mem_cons]
      rw [ih]
      constructor
      · intro h hm
        rcases hm with hm | hm
        · exact hk hm
        · exact h hm
      · intro h hm
        exact h (Or.inr hm)

theorem nodup_keys_updD {α : Type} {k : Line} {v : α} {ss : AssocL α}
    (h : (ss.map Prod.fst).Nodup) : ((updD k v ss).map Prod.fst).Nodup := by
  by_cases hl : lookupD k ss = none
  · rw [keys_updD_of_none v hl]
    refine List.Nodup.append h (List.nodup_singleton k) ?_
    intro a ha hb
    rw [List.mem_singleton] at hb
    rw [hb] at ha
    exact (lookupD_eq_none_iff k ss).mp hl ha
  · rwa [keys_updD_of_some v hl]

theorem nodup_keys_modifyD {α : Type} (k : Line) (f : α → α) {ss : AssocL α}
    (h : (ss.map Prod.fst).Nodup) : ((modifyD k f ss).map Prod.fst).Nodup := by
  rwa [keys_modifyD]

theorem lookupD_filter_of_false_nodup {α : Type} {k : Line} {v : α}
    {p : Line × α → Bool} {ss : AssocL α} (hnd : (ss.map Prod.fst).Nodup)
    (h : lookupD k ss = some v) (hp : p (k, v) = false) :
    lookupD k (ss.filter p) = none := by
  induction ss with
  | nil => simp [lookupD] at h
  | cons hd t ih =>
    obtain ⟨k', v'⟩ := hd
    rw [List.map_cons, List.nodup_cons] at hnd
    by_cases hk : k = k'
    · subst hk
      simp only [lookupD, if_pos rfl] at h
      obtain rfl : v' = v := by injection h
      have ht : lookupD k t = none :=
        (lookupD_eq_none_iff k t).mpr hnd.1
      simp [List.filter, hp, lookupD_filter_of_none ht]
    · simp only [lookupD, if_neg hk] at h
      by_cases hpp : p (k', v')
      · simp [List.filter, hpp, lookupD, hk, ih hnd.2 h]
      · simp [List.filter, hpp, ih hnd.2 h]

/-! ## Characterizations of the connection-fold blocks -/

theorem stepAccept_of_none {st : ConnState} {l : Line}
    (h : searchL matchAcceptedAt l = none) : stepAccept st l = st := by
  unfold stepAccept
  rw [h]

theorem stepAccept_eq {st : ConnState} {l : Line} {ip : Line} {pt : Nat}
    (h : searchL matchAcceptedAt l = some (ip, pt)) :
    stepAccept st l =
      { connections := updD ip
          { enb_id := enbIdOf ip, ip_address := ip, port := pt,
            connected_at := extractTimestamp l, is_connected := true,
            sctp_streams := none } st.connections,
        refused := delS ip st.refused } := by
  unfold stepAccept
  rw [h]

theorem stepStreams_of_none {st : ConnState} {l : Line}
    (h : searchL matchStreamsAt l = none) : stepStreams st l = st := by
  unfold stepStreams
  rw [h]

theorem stepStreams_of_absent {st : ConnState} {l : Line} {ip : Line} {n : Nat}
    (h : searchL matchStreamsAt l = some (ip, n))
    (ha : lookupD ip st.connections = none) : stepStreams st l = st := by
  unfold stepStreams
  rw [h]
  simp [ha]

theorem stepStreams_of_mem {st : ConnState} {l : Line} {ip : Line} {n : Nat}
    (h : searchL matchStreamsAt l = some (ip, n))
    (ha : (lookupD ip st.connections).isSome = true) :
    stepStreams st l =
      { st with connections :=
          modifyD ip (fun c => { c with sctp_streams := some n }) st.connections } := by
  unfold stepStreams
  rw [h]
  simp [ha]

theorem stepRefused_of_none {st : ConnState} {l : Line}
    (h : searchL matchRefusedAt l = none) : stepRefused st l = st := by
  unfold stepRefused
  rw [h]

theorem stepRefused_eq {st : ConnState} {l : Line} {ip : Line}
    (h : searchL matchRefusedAt l = some ip) :
    stepRefused st l =
      { connections := modifyD ip (fun c => { c with is_connected := false }) st.connections,
        refused := insS ip st.refused } := by
  unfold stepRefused
  rw [h]

/-! ## Characterizations of the session-fold blocks -/

theorem stepCtx_sessions (st : SessState) (l : Line) :
    (stepCtx st l).sessions = st.sessions := by
  unfold stepCtx
  cases searchL matchCtxAt l <;> cases searchL matchImsiAt l <;> rfl

theorem stepCtx_lastEnbUe (st : SessState) (l : Line) :
    (stepCtx st l).lastEnbUe = st.lastEnbUe := by
  unfold stepCtx
  cases searchL matchCtxAt l <;> cases searchL matchImsiAt l <;> rfl

theorem stepCtx_lastSess (st : SessState) (l : Line) :
    (stepCtx st l).lastSess = st.lastSess := by
  unfold stepCtx
  cases searchL matchCtxAt l <;> cases searchL matchImsiAt l <;> rfl

theorem stepCtx_of_none {st : SessState} {l : Line}
    (h : searchL matchCtxAt l = none) : stepCtx st l = st := by
  unfold stepCtx
  rw [h]

theorem stepAttach_pending (st : SessState) (l : Line) :
    (stepAttach st l).pending = st.pending := by
  unfold stepAttach
  cases searchL matchAttachAt l <;> rfl

theorem stepAttach_lastEnbUe (st : SessState) (l : Line) :
    (stepAttach st l).lastEnbUe = st.lastEnbUe := by
  unfold stepAttach
  cases searchL matchAttachAt l <;> rfl

theorem stepAttach_lastSess (st : SessState) (l : Line) :
    (stepAttach st l).lastSess = st.lastSess := by
  unfold stepAttach
  cases searchL matchAttachAt l <;> rfl

theorem stepAttach_of_none {st : SessState} {l : Line}
    (h : searchL matchAttachAt l = none) : stepAttach st l = st := by
  unfold stepAttach
  rw [h]

theorem stepDetach_pending (st : SessState) (l : Line) :
    (stepDetach st l).pending = st.pending := by
  unfold stepDetach
  cases searchL matchDetachAt l <;> rfl

theorem stepDetach_lastEnbUe (st : SessState) (l : Line) :
    (stepDetach st l).lastEnbUe = st.lastEnbUe := by
  unfold stepDetach
  cases searchL matchDetachAt l <;> rfl

theorem stepDetach_lastSess (st : SessState) (l : Line) :
    (stepDetach st l).lastSess = st.lastSess := by
  unfold stepDetach
  cases searchL matchDetachAt l <;> rfl

theorem stepDetach_of_none {st : SessState} {l : Line}
    (h : searchL matchDetachAt l = none) : stepDetach st l = st := by
  unfold stepDetach
  rw [h]

theorem stepDetach_eq {st : SessState} {l : Line} {imsi : Line}
    (h : searchL matchDetachAt l = some imsi) :
    stepDetach st l =
      { st with sessions :=
          modifyD imsi (fun s => { s with state := .detached }) st.sessions } := by
  unfold stepDetach
  rw [h]

theorem stepRemoved_pending (st : SessState) (l : Line) :
    (stepRemoved st l).pending = st.pending := by
  unfold stepRemoved
  cases h : searchL matchRemovedAt l with
  | none => rfl
  | some p =>
    obtain ⟨imsi, apn⟩ := p
    by_cases hm : (lookupD imsi st.sessions).isSome <;> simp [hm]

theorem stepRemoved_lastEnbUe (st : SessState) (l : Line) :
    (stepRemoved st l).lastEnbUe = st.lastEnbUe := by
  unfold stepRemoved
  cases h : searchL matchRemovedAt l with
  | none => rfl
  | some p =>
    obtain ⟨imsi, apn⟩ := p
    by_cases hm : (lookupD imsi st.sessions).isSome <;> simp [hm]

theorem stepRemoved_lastSess (st : SessState) (l : Line) :
    (stepRemoved st l).lastSess = st.lastSess := by
  unfold stepRemoved
  cases h : searchL matchRemovedAt l with
  | none => rfl
  | some p =>
    obtain ⟨imsi, apn⟩ := p
    by_cases hm : (lookupD imsi st.sessions).isSome <;> simp [hm]

theorem stepRemoved_of_none {st : SessState} {l : Line}
    (h : searchL matchRemovedAt l = none) : stepRemoved st l = st := by
  unfold stepRemoved
  rw [h]

theorem stepRemoved_of_absent {st : SessState} {l : Line} {imsi apn : Line}
    (h : searchL matchRemovedAt l = some (imsi, apn))
    (ha : lookupD imsi st.sessions = none) : stepRemoved st l = st := by
  unfold stepRemoved
  rw [h]
  simp [ha]

theorem stepRemoved_of_mem {st : SessState} {l : Line} {imsi apn : Line}
    (h : searchL matchRemovedAt l = some (imsi, apn))
    (ha : (lookupD imsi st.sessions).isSome = true) :
    stepRemoved st l = { st with sessions := modifyD imsi (fun s => { s with apn := apn, state := .detached }) st.sessions } := by
  unfold stepRemoved
  rw [h]
  simp [ha]

theorem stepCounts_sessions (st : SessState) (l : Line) :
    (stepCounts st l).sessions = st.sessions := by
  unfold stepCounts
  cases searchL matchEnbUeCountAt l <;> cases searchL matchMmeSessCountAt l <;> rfl

theorem stepCounts_pending (st : SessState) (l : Line) :
    (stepCounts st l).pending = st.pending := by
  unfold stepCounts
  cases searchL matchEnbUeCountAt l <;> cases searchL matchMmeSessCountAt l <;> rfl

theorem stepCounts_lastEnbUe (st : SessState) (l : Line) :
    (stepCounts st l).lastEnbUe =
      match searchL matchEnbUeCountAt l with
      | some n => n
      | none => st.lastEnbUe := by
  unfold stepCounts
  cases searchL matchEnbUeCountAt l <;> cases searchL matchMmeSessCountAt l <;> rfl

theorem stepCounts_lastSess (st : SessState) (l : Line) :
    (stepCounts st l).lastSess =
      match searchL matchMmeSessCountAt l with
      | some n => n
      | none => st.lastSess := by
  unfold stepCounts
  cases searchL matchEnbUeCountAt l <;> cases searchL matchMmeSessCountAt l <;> rfl


/-! ## Lookup behavior of the attach block -/

theorem lookup_attachCreate_ne {ss : AssocL UESession} {imsi X : Line} (h : X ≠ imsi) :
    lookupD X (attachCreate ss imsi) = lookupD X ss := by
  unfold attachCreate
  by_cases hm : (lookupD imsi ss).isSome
  · rw [if_pos hm]
  · rw [if_neg hm, lookupD_updD_ne h]

theorem lookup_attachCreate_self (ss : AssocL UESession) (imsi : Line) :
    ∃ w, lookupD imsi (attachCreate ss imsi) = some w := by
  unfold attachCreate
  cases hm : lookupD imsi ss with
  | some w => exact ⟨w, by simp [hm]⟩
  | none => exact ⟨mkUESession imsi, by simp [hm, lookupD_updD_self]⟩

theorem lookup_attachMark_req (l : Line) (imsi : Line) (ss : AssocL UESession) :
    lookupD imsi (attachMark l imsi .req ss) =
      (lookupD imsi ss).map (fun s => { s with state := .attaching }) := by
  unfold attachMark
  exact lookupD_modifyD_self imsi _ ss

theorem lookup_attachMark_comp (l : Line) (imsi : Line) (ss : AssocL UESession) :
    lookupD imsi (attachMark l imsi .comp ss) =
      (lookupD imsi ss).map (fun s => { s with state := .attached, attached_at := extractTimestamp l }) := by
  unfold attachMark
  exact lookupD_modifyD_self imsi _ ss

theorem lookup_attachMark_ne {l : Line} {imsi X : Line} {ev : AttachEv}
    {ss : AssocL UESession} (h : X ≠ imsi) :
    lookupD X (attachMark l imsi ev ss) = lookupD X ss := by
  cases ev <;> exact lookupD_modifyD_ne h _ ss

theorem attachCtx_of_none {p : AssocL (Nat × Nat)} {imsi : Line}
    (hp : lookupD imsi p = none) (ss : AssocL UESession) :
    attachCtx p imsi ss = ss := by
  unfold attachCtx
  rw [hp]

theorem lookup_attachCtx_some {p : AssocL (Nat × Nat)} {imsi : Line} {e m : Nat}
    (hp : lookupD imsi p = some (e, m)) (ss : AssocL UESession) :
    lookupD imsi (attachCtx p imsi ss) =
      (lookupD imsi ss).map (fun s => { s with enb_ue_s1ap_id := some e, mme_ue_s1ap_id := some m }) := by
  unfold attachCtx
  rw [hp]
  exact lookupD_modifyD_self imsi _ ss

theorem lookup_attachCtx_ne {p : AssocL (Nat × Nat)} {imsi X : Line}
    {ss : AssocL UESession} (h : X ≠ imsi) :
    lookupD X (attachCtx p imsi ss) = lookupD X ss := by
  unfold attachCtx
  cases hp : lookupD imsi p with
  | none => rfl
  | some em =>
      obtain ⟨e, m⟩ := em
      exact lookupD_modifyD_ne h _ ss

/-- The state an attach event drives a session into. -/
def evTargetState : AttachEv → UEState
  | .req => .attaching
  | .comp => .attached

theorem lookup_attach_pipeline (st : SessState) (l : Line) (imsi : Line) (ev : AttachEv) :
    ∃ s, lookupD imsi (attachCtx st.pending imsi (attachMark l imsi ev (attachCreate st.sessions imsi))) = some s ∧
      s.state = evTargetState ev ∧
      (ev = AttachEv.comp → s.attached_at = extractTimestamp l) ∧
      (∀ e m, lookupD imsi st.pending = some (e, m) →
        s.enb_ue_s1ap_id = some e ∧ s.mme_ue_s1ap_id = some m) := by
  obtain ⟨w, hw⟩ := lookup_attachCreate_self st.sessions imsi
  cases ev with
  | req =>
      have h1 : lookupD imsi (attachMark l imsi .req (attachCreate st.sessions imsi)) =
          some { w with state := .attaching } := by
        rw [lookup_attachMark_req, hw]
        rfl
      cases hp : lookupD imsi st.pending with
      | none =>
          refine ⟨{ w with state := .attaching }, ?_, rfl, ?_, ?_⟩
          · rw [attachCtx_of_none hp]
            exact h1
          · intro he
            cases he
          · intro e m hpe
            cases hpe
      | some em =>
          obtain ⟨e, m⟩ := em
          refine ⟨{ w with state := .attaching, enb_ue_s1ap_id := some e, mme_ue_s1ap_id := some m }, ?_, rfl, ?_, ?_⟩
          · rw [lookup_attachCtx_some hp, h1]
            rfl
          · intro he
            cases he
          · intro e' m' hpe
            obtain ⟨rfl, rfl⟩ : e = e' ∧ m = m' := by
              injection hpe with h2
              injection h2 with h3 h4
              exact ⟨h3, h4⟩
            exact ⟨rfl, rfl⟩
  | comp =>
      have h1 : lookupD imsi (attachMark l imsi .comp (attachCreate st.sessions imsi)) =
          some { w with state := .attached, attached_at := extractTimestamp l } := by
        rw [lookup_attachMark_comp, hw]
        rfl
      cases hp : lookupD imsi st.pending with
      | none =>
          refine ⟨{ w with state := .attached, attached_at := extractTimestamp l }, ?_, rfl, fun _ => rfl, ?_⟩
          · rw [attachCtx_of_none hp]
            exact h1
          · intro e m hpe
            cases hpe
      | some em =>
          obtain ⟨e, m⟩ := em
          refine ⟨{ w with state := .attached, attached_at := extractTimestamp l, enb_ue_s1ap_id := some e, mme_ue_s1ap_id := some m }, ?_, rfl, fun _ => rfl, ?_⟩
          · rw [lookup_attachCtx_some hp, h1]
            rfl
          · intro e' m' hpe
            obtain ⟨rfl, rfl⟩ : e = e' ∧ m = m' := by
              injection hpe with h2
              injection h2 with h3 h4
              exact ⟨h3, h4⟩
            exact ⟨rfl, rfl⟩

theorem lookup_stepAttach_self (st : SessState) {l : Line} {imsi : Line} {ev : AttachEv}
    (h : searchL matchAttachAt l = some (imsi, ev)) :
    ∃ s, lookupD imsi (stepAttach st l).sessions = some s ∧
      s.state = evTargetState ev ∧
      (ev = AttachEv.comp → s.attached_at = extractTimestamp l) ∧
      (∀ e m, lookupD imsi st.pending = some (e, m) →
        s.enb_ue_s1ap_id = some e ∧ s.mme_ue_s1ap_id = some m) := by
  unfold stepAttach
  rw [h]
  exact lookup_attach_pipeline st l imsi ev

theorem lookup_stepAttach_ne {st : SessState} {l : Line} {imsi X : Line} {ev : AttachEv}
    (h : searchL matchAttachAt l = some (imsi, ev)) (hne : X ≠ imsi) :
    lookupD X (stepAttach st l).sessions = lookupD X st.sessions := by
  unfold stepAttach
  rw [h]
  show lookupD X (attachCtx st.pending imsi (attachMark l imsi ev (attachCreate st.sessions imsi))) = lookupD X st.sessions
  rw [lookup_attachCtx_ne hne, lookup_attachMark_ne hne, lookup_attachCreate_ne hne]


/-! ## Whole-iteration lemmas for the session fold -/

theorem lookup_stepSess_irrelevant {st : SessState} {l X : Line}
    (hatt : ∀ ev, searchL matchAttachAt l ≠ some (X, ev))
    (hdet : searchL matchDetachAt l ≠ some X)
    (hrem : ∀ apn, searchL matchRemovedAt l ≠ some (X, apn)) :
    lookupD X (stepSess st l).sessions = lookupD X st.sessions := by
  unfold stepSess
  rw [stepCounts_sessions]
  have e1 : lookupD X (stepCtx st l).sessions = lookupD X st.sessions := by
    rw [stepCtx_sessions]
  have e2 : lookupD X (stepAttach (stepCtx st l) l).sessions =
      lookupD X (stepCtx st l).sessions := by
    cases hA : searchL matchAttachAt l with
    | none => rw [stepAttach_of_none hA]
    | some p =>
        obtain ⟨imsi, ev⟩ := p
        have hne : X ≠ imsi := fun he => hatt ev (by rw [he]; exact hA)
        exact lookup_stepAttach_ne hA hne
  have e3 : lookupD X (stepDetach (stepAttach (stepCtx st l) l) l).sessions =
      lookupD X (stepAttach (stepCtx st l) l).sessions := by
    cases hD : searchL matchDetachAt l with
    | none => rw [stepDetach_of_none hD]
    | some imsi =>
        have hne : X ≠ imsi := fun he => hdet (by rw [he]; exact hD)
        rw [stepDetach_eq hD]
        exact lookupD_modifyD_ne hne _ _
  have e4 : lookupD X (stepRemoved (stepDetach (stepAttach (stepCtx st l) l) l) l).sessions =
      lookupD X (stepDetach (stepAttach (stepCtx st l) l) l).sessions := by
    cases hR : searchL matchRemovedAt l with
    | none => rw [stepRemoved_of_none hR]
    | some p =>
        obtain ⟨imsi, apn⟩ := p
        have hne : X ≠ imsi := fun he => hrem apn (by rw [he]; exact hR)
        by_cases hm : (lookupD imsi (stepDetach (stepAttach (stepCtx st l) l) l).sessions).isSome
        · rw [stepRemoved_of_mem hR hm]
          exact lookupD_modifyD_ne hne _ _
        · rw [stepRemoved_of_absent hR (Option.not_isSome_iff_eq_none.mp hm)]
  rw [e4, e3, e2, e1]

/-- No value stored at key `X` is in the attached state. -/
def nonattachedAt (X : Line) (ss : AssocL UESession) : Prop :=
  ∀ v, lookupD X ss = some v → v.state ≠ UEState.attached

theorem nonattachedAt_stepSess {st : SessState} {l X : Line}
    (hcomp : searchL matchAttachAt l ≠ some (X, AttachEv.comp))
    (h : nonattachedAt X st.sessions) :
    nonattachedAt X (stepSess st l).sessions := by
  unfold stepSess
  rw [stepCounts_sessions]
  have h1 : nonattachedAt X (stepCtx st l).sessions := by
    rwa [stepCtx_sessions]
  have h2 : nonattachedAt X (stepAttach (stepCtx st l) l).sessions := by
    cases hA : searchL matchAttachAt l with
    | none => rwa [stepAttach_of_none hA]
    | some p =>
        obtain ⟨imsi, ev⟩ := p
        by_cases hne : X = imsi
        · subst hne
          cases ev with
          | comp => exact absurd hA hcomp
          | req =>
              obtain ⟨s, hs, hstate, _, _⟩ := lookup_stepAttach_self (stepCtx st l) hA
              intro v hv
              rw [hs] at hv
              obtain rfl : s = v := by injection hv
              rw [hstate]
              decide
        · intro v hv
          rw [lookup_stepAttach_ne hA hne] at hv
          exact h1 v hv
  have h3 : nonattachedAt X (stepDetach (stepAttach (stepCtx st l) l) l).sessions := by
    cases hD : searchL matchDetachAt l with
    | none => rwa [stepDetach_of_none hD]
    | some imsi =>
        rw [stepDetach_eq hD]
        intro v hv
        by_cases hne : X = imsi
        · subst hne
          rw [lookupD_modifyD_self] at hv
          cases hw : lookupD X (stepAttach (stepCtx st l) l).sessions with
          | none => rw [hw] at hv; cases hv
          | some w =>
              rw [hw] at hv
              obtain rfl : { w with state := UEState.detached } = v := by injection hv
              intro hEq
              cases hEq
        · rw [lookupD_modifyD_ne hne] at hv
          exact h2 v hv
  have h4 : nonattachedAt X (stepRemoved (stepDetach (stepAttach (stepCtx st l) l) l) l).sessions := by
    cases hR : searchL matchRemovedAt l with
    | none => rwa [stepRemoved_of_none hR]
    | some p =>
        obtain ⟨imsi, apn⟩ := p
        by_cases hm : (lookupD imsi (stepDetach (stepAttach (stepCtx st l) l) l).sessions).isSome
        · rw [stepRemoved_of_mem hR hm]
          intro v hv
          by_cases hne : X = imsi
          · subst hne
            rw [lookupD_modifyD_self] at hv
            cases hw : lookupD X (stepDetach (stepAttach (stepCtx st l) l) l).sessions with
            | none => rw [hw] at hv; cases hv
            | some w =>
                rw [hw] at hv
                obtain rfl : { w with apn := apn, state := UEState.detached } = v := by injection hv
                intro hEq
                cases hEq
          · rw [lookupD_modifyD_ne hne] at hv
            exact h3 v hv
        · rwa [stepRemoved_of_absent hR (Option.not_isSome_iff_eq_none.mp hm)]
  exact h4

theorem nonattachedAt_foldl {X : Line} (lines : List Line) :
    ∀ st : SessState, (∀ l ∈ lines, searchL matchAttachAt l ≠ some (X, AttachEv.comp)) →
      nonattachedAt X st.sessions →
      nonattachedAt X (List.foldl stepSess st lines).sessions := by
  induction lines with
  | nil => intro st _ h; exact h
  | cons l ls ih =>
      intro st hl h
      rw [List.foldl_cons]
      exact ih (stepSess st l) (fun l' hl' => hl l' (List.mem_cons_of_mem l hl'))
        (nonattachedAt_stepSess (hl l (List.mem_cons_self l ls)) h)

theorem lookup_foldl_irrelevant {X : Line} (lines : List Line) :
    ∀ st : SessState,
      (∀ l ∈ lines, (∀ ev, searchL matchAttachAt l ≠ some (X, ev)) ∧
        searchL matchDetachAt l ≠ some X ∧
        (∀ apn, searchL matchRemovedAt l ≠ some (X, apn))) →
      lookupD X (List.foldl stepSess st lines).sessions = lookupD X st.sessions := by
  induction lines with
  | nil => intro st _; rfl
  | cons l ls ih =>
      intro st hl
      rw [List.foldl_cons]
      obtain ⟨ha, hd, hr⟩ := hl l (List.mem_cons_self l ls)
      rw [ih (stepSess st l) (fun l' hl' => hl l' (List.mem_cons_of_mem l hl'))]
      exact lookup_stepSess_irrelevant ha hd hr

/-! ## Key-uniqueness of the session dictionary -/

theorem keys_attachMark (l : Line) (imsi : Line) (ev : AttachEv) (ss : AssocL UESession) :
    (attachMark l imsi ev ss).map Prod.fst = ss.map Prod.fst := by
  cases ev <;> exact keys_modifyD imsi _ ss

theorem keys_attachCtx (p : AssocL (Nat × Nat)) (imsi : Line) (ss : AssocL UESession) :
    (attachCtx p imsi ss).map Prod.fst = ss.map Prod.fst := by
  unfold attachCtx
  cases lookupD imsi p with
  | none => rfl
  | some em =>
      obtain ⟨e, m⟩ := em
      exact keys_modifyD imsi _ ss

theorem nodup_keys_attachCreate {ss : AssocL UESession} (imsi : Line)
    (h : (ss.map Prod.fst).Nodup) : ((attachCreate ss imsi).map Prod.fst).Nodup := by
  unfold attachCreate
  by_cases hm : (lookupD imsi ss).isSome
  · rwa [if_pos hm]
  · rw [if_neg hm]
    exact nodup_keys_updD h

theorem nodup_keys_stepSess {st : SessState} (l : Line)
    (h : (st.sessions.map Prod.fst).Nodup) :
    ((stepSess st l).sessions.map Prod.fst).Nodup := by
  unfold stepSess
  rw [stepCounts_sessions]
  have h1 : ((stepCtx st l).sessions.map Prod.fst).Nodup := by
    rwa [stepCtx_sessions]
  have h2 : ((stepAttach (stepCtx st l) l).sessions.map Prod.fst).Nodup := by
    cases hA : searchL matchAttachAt l with
    | none => rwa [stepAttach_of_none hA]
    | some p =>
        obtain ⟨imsi, ev⟩ := p
        unfold stepAttach
        rw [hA]
        show ((attachCtx (stepCtx st l).pending imsi (attachMark l imsi ev (attachCreate (stepCtx st l).sessions imsi))).map Prod.fst).Nodup
        rw [keys_attachCtx, keys_attachMark]
        exact nodup_keys_attachCreate imsi h1
  have h3 : ((stepDetach (stepAttach (stepCtx st l) l) l).sessions.map Prod.fst).Nodup := by
    cases hD : searchL matchDetachAt l with
    | none => rwa [stepDetach_of_none hD]
    | some imsi =>
        rw [stepDetach_eq hD]
        exact nodup_keys_modifyD imsi _ h2
  cases hR : searchL matchRemovedAt l with
  | none => rwa [stepRemoved_of_none hR]
  | some p =>
      obtain ⟨imsi, apn⟩ := p
      by_cases hm : (lookupD imsi (stepDetach (stepAttach (stepCtx st l) l) l).sessions).isSome
      · rw [stepRemoved_of_mem hR hm]
        exact nodup_keys_modifyD imsi _ h3
      · rwa [stepRemoved_of_absent hR (Option.not_isSome_iff_eq_none.mp hm)]

theorem nodup_keys_foldSess_aux (lines : List Line) :
    ∀ st : SessState, (st.sessions.map Prod.fst).Nodup →
      ((List.foldl stepSess st lines).sessions.map Prod.fst).Nodup := by
  induction lines with
  | nil => intro st h; exact h
  | cons l ls ih =>
      intro st h
      rw [List.foldl_cons]
      exact ih (stepSess st l) (nodup_keys_stepSess l h)

theorem nodup_keys_foldSess (lines : List Line) :
    ((foldSess lines).sessions.map Prod.fst).Nodup :=
  nodup_keys_foldSess_aux lines initSessState List.nodup_nil

/-! ## The counter components of the session fold -/

theorem stepSess_lastEnbUe (st : SessState) (l : Line) :
    (stepSess st l).lastEnbUe =
      match searchL matchEnbUeCountAt l with
      | some n => n
      | none => st.lastEnbUe := by
  unfold stepSess
  rw [stepCounts_lastEnbUe, stepRemoved_lastEnbUe, stepDetach_lastEnbUe,
    stepAttach_lastEnbUe, stepCtx_lastEnbUe]

theorem stepSess_lastSess (st : SessState) (l : Line) :
    (stepSess st l).lastSess =
      match searchL matchMmeSessCountAt l with
      | some n => n
      | none => st.lastSess := by
  unfold stepSess
  rw [stepCounts_lastSess, stepRemoved_lastSess, stepDetach_lastSess,
    stepAttach_lastSess, stepCtx_lastSess]

theorem foldl_lastEnbUe (lines : List Line) :
    ∀ st : SessState, (List.foldl stepSess st lines).lastEnbUe =
      List.foldl (fun a l => match searchL matchEnbUeCountAt l with
        | some n => n
        | none => a) st.lastEnbUe lines := by
  induction lines with
  | nil => intro st; rfl
  | cons l ls ih =>
      intro st
      rw [List.foldl_cons, List.foldl_cons, ih (stepSess st l), stepSess_lastEnbUe]

theorem foldl_lastSess (lines : List Line) :
    ∀ st : SessState, (List.foldl stepSess st lines).lastSess =
      List.foldl (fun a l => match searchL matchMmeSessCountAt l with
        | some n => n
        | none => a) st.lastSess lines := by
  induction lines with
  | nil => intro st; rfl
  | cons l ls ih =>
      intro st
      rw [List.foldl_cons, List.foldl_cons, ih (stepSess st l), stepSess_lastSess]


/-! ## Connection-fold invariants -/

theorem stepStreams_refused (st : ConnState) (l : Line) :
    (stepStreams st l).refused = st.refused := by
  unfold stepStreams
  cases h : searchL matchStreamsAt l with
  | none => rfl
  | some p =>
      obtain ⟨ip, n⟩ := p
      by_cases hm : (lookupD ip st.connections).isSome <;> simp [hm]

theorem memS_refused_stepConn {st : ConnState} {l ip : Line}
    (hacc : ∀ pt, searchL matchAcceptedAt l ≠ some (ip, pt))
    (h : memS ip st.refused = true) :
    memS ip (stepConn st l).refused = true := by
  unfold stepConn
  have h1 : memS ip (stepAccept st l).refused = true := by
    cases hA : searchL matchAcceptedAt l with
    | none => rwa [stepAccept_of_none hA]
    | some p =>
        obtain ⟨ip', pt⟩ := p
        have hne : ip ≠ ip' := fun he => hacc pt (by rw [he]; exact hA)
        rw [stepAccept_eq hA]
        show memS ip (delS ip' st.refused) = true
        rw [memS_delS_ne hne]
        exact h
  have h2 : memS ip (stepStreams (stepAccept st l) l).refused = true := by
    rwa [stepStreams_refused]
  cases hR : searchL matchRefusedAt l with
  | none => rwa [stepRefused_of_none hR]
  | some ip' =>
      rw [stepRefused_eq hR]
      show memS ip (insS ip' (stepStreams (stepAccept st l) l).refused) = true
      exact memS_insS_of_mem h2

theorem memS_refused_foldConn {ip : Line} (lines : List Line) :
    ∀ st : ConnState,
      (∀ l ∈ lines, ∀ pt, searchL matchAcceptedAt l ≠ some (ip, pt)) →
      memS ip st.refused = true →
      memS ip (List.foldl stepConn st lines).refused = true := by
  induction lines with
  | nil => intro st _ h; exact h
  | cons l ls ih =>
      intro st hl h
      rw [List.foldl_cons]
      exact ih (stepConn st l) (fun l' hl' => hl l' (List.mem_cons_of_mem l hl'))
        (memS_refused_stepConn (hl l (List.mem_cons_self l ls)) h)

theorem memS_refused_after_refuse {st : ConnState} {l ip : Line}
    (hR : searchL matchRefusedAt l = some ip) :
    memS ip (stepConn st l).refused = true := by
  unfold stepConn
  rw [stepRefused_eq hR]
  exact memS_insS_self ip _

/-- The address has a live connection object and no refusal marker. -/
def connectedAt (ip : Line) (st : ConnState) : Prop :=
  (∃ c, lookupD ip st.connections = some c ∧ c.is_connected = true) ∧
    memS ip st.refused = false

theorem connectedAt_stepAccept {st : ConnState} {l ip : Line}
    (h : connectedAt ip st) : connectedAt ip (stepAccept st l) := by
  obtain ⟨⟨c, hc, hcc⟩, hns⟩ := h
  cases hA : searchL matchAcceptedAt l with
  | none =>
      rw [stepAccept_of_none hA]
      exact ⟨⟨c, hc, hcc⟩, hns⟩
  | some p =>
      obtain ⟨ip', pt⟩ := p
      rw [stepAccept_eq hA]
      by_cases hne : ip = ip'
      · subst hne
        refine ⟨⟨_, lookupD_updD_self ip _ st.connections, rfl⟩, ?_⟩
        exact memS_delS_self ip st.refused
      · refine ⟨⟨c, ?_, hcc⟩, ?_⟩
        · show lookupD ip (updD ip' _ st.connections) = some c
          rw [lookupD_updD_ne hne]
          exact hc
        · show memS ip (delS ip' st.refused) = false
          rw [memS_delS_ne hne]
          exact hns

theorem connectedAt_stepStreams {st : ConnState} {l : Line} {ip : Line}
    (h : connectedAt ip st) : connectedAt ip (stepStreams st l) := by
  obtain ⟨⟨c, hc, hcc⟩, hns⟩ := h
  refine ⟨?_, by rwa [stepStreams_refused]⟩
  cases hS : searchL matchStreamsAt l with
  | none =>
      rw [stepStreams_of_none hS]
      exact ⟨c, hc, hcc⟩
  | some p =>
      obtain ⟨ip', n⟩ := p
      by_cases hm : (lookupD ip' st.connections).isSome
      · rw [stepStreams_of_mem hS hm]
        by_cases hne : ip = ip'
        · subst hne
          refine ⟨{ c with sctp_streams := some n }, ?_, hcc⟩
          show lookupD ip (modifyD ip _ st.connections) = _
          rw [lookupD_modifyD_self, hc]
          rfl
        · refine ⟨c, ?_, hcc⟩
          show lookupD ip (modifyD ip' _ st.connections) = some c
          rw [lookupD_modifyD_ne hne]
          exact hc
      · rw [stepStreams_of_absent hS (Option.not_isSome_iff_eq_none.mp hm)]
        exact ⟨c, hc, hcc⟩

theorem connectedAt_stepRefused {st : ConnState} {l ip : Line}
    (href : searchL matchRefusedAt l ≠ some ip)
    (h : connectedAt ip st) : connectedAt ip (stepRefused st l) := by
  obtain ⟨⟨c, hc, hcc⟩, hns⟩ := h
  cases hR : searchL matchRefusedAt l with
  | none =>
      rw [stepRefused_of_none hR]
      exact ⟨⟨c, hc, hcc⟩, hns⟩
  | some ip' =>
      have hne : ip ≠ ip' := fun he => href (by rw [he]; exact hR)
      rw [stepRefused_eq hR]
      refine ⟨⟨c, ?_, hcc⟩, ?_⟩
      · show lookupD ip (modifyD ip' _ st.connections) = some c
        rw [lookupD_modifyD_ne hne]
        exact hc
      · show memS ip (insS ip' st.refused) = false
        rw [memS_insS_ne hne]
        exact hns

theorem connectedAt_stepConn {st : ConnState} {l ip : Line}
    (href : searchL matchRefusedAt l ≠ some ip)
    (h : connectedAt ip st) : connectedAt ip (stepConn st l) :=
  connectedAt_stepRefused href (connectedAt_stepStreams (connectedAt_stepAccept h))

theorem connectedAt_after_accept {st : ConnState} {l ip : Line} {pt : Nat}
    (hA : searchL matchAcceptedAt l = some (ip, pt))
    (href : searchL matchRefusedAt l ≠ some ip) :
    connectedAt ip (stepConn st l) := by
  have h1 : connectedAt ip (stepAccept st l) := by
    rw [stepAccept_eq hA]
    refine ⟨⟨_, lookupD_updD_self ip _ st.connections, rfl⟩, ?_⟩
    exact memS_delS_self ip st.refused
  exact connectedAt_stepRefused href (connectedAt_stepStreams h1)

theorem connectedAt_foldConn {ip : Line} (lines : List Line) :
    ∀ st : ConnState,
      (∀ l ∈ lines, searchL matchRefusedAt l ≠ some ip) →
      connectedAt ip st → connectedAt ip (List.foldl stepConn st lines) := by
  induction lines with
  | nil => intro st _ h; exact h
  | cons l ls ih =>
      intro st hl h
      rw [List.foldl_cons]
      exact ih (stepConn st l) (fun l' hl' => hl l' (List.mem_cons_of_mem l hl'))
        (connectedAt_stepConn (hl l (List.mem_cons_self l ls)) h)

theorem connResult_lookup_none_of_refused {st : ConnState} {ip : Line}
    (h : memS ip st.refused = true) : lookupD ip (connResult st) = none := by
  unfold connResult
  refine lookupD_filter_of_allfalse ?_
  intro v
  simp [h]

theorem connResult_lookup_of_connectedAt {st : ConnState} {ip : Line}
    (h : connectedAt ip st) :
    ∃ c, lookupD ip (connResult st) = some c ∧ c.is_connected = true := by
  obtain ⟨⟨c, hc, hcc⟩, hns⟩ := h
  refine ⟨c, ?_, hcc⟩
  unfold connResult
  refine lookupD_filter_of_some hc ?_
  simp [hcc, hns]

/-! ## The `max_num_of_ostreams` block inside a full iteration -/

theorem stepConn_streams_absent {st : ConnState} {l ip : Line} {n : Nat}
    (hS : searchL matchStreamsAt l = some (ip, n))
    (hA : searchL matchAcceptedAt l = none)
    (hR : searchL matchRefusedAt l = none)
    (hab : lookupD ip st.connections = none) :
    stepConn st l = st := by
  unfold stepConn
  rw [stepAccept_of_none hA, stepStreams_of_absent hS hab, stepRefused_of_none hR]

theorem stepConn_streams_mem {st : ConnState} {l ip : Line} {n : Nat}
    (hS : searchL matchStreamsAt l = some (ip, n))
    (hA : searchL matchAcceptedAt l = none)
    (hR : searchL matchRefusedAt l = none)
    (hm : (lookupD ip st.connections).isSome = true) :
    stepConn st l = { st with connections := modifyD ip (fun c => { c with sctp_streams := some n }) st.connections } := by
  unfold stepConn
  rw [stepAccept_of_none hA, stepStreams_of_mem hS hm, stepRefused_of_none hR]


/-! ## Window-level helpers -/

theorem readLogLines_of_le {lines : List Line} {n : Nat} (h : lines.length ≤ n) :
    readLogLines n (FileSt.content lines) = lines := by
  show (if lines.length > n then List.drop (lines.length - n) lines else lines) = lines
  rw [if_neg (by omega)]

theorem parseLogsWindow_eq {lines : List Line} (h : lines ≠ []) :
    parseLogsWindow lines = connResult (lines.foldl stepConn initConnState) := by
  unfold parseLogsWindow
  rw [if_neg h]

theorem parseUeWindow_eq {lines : List Line} (h : lines ≠ []) :
    parseUeWindow lines = (foldSess lines).sessions.filter (fun p => isAttachedB p.2) := by
  unfold parseUeWindow
  rw [if_neg h]

theorem isAttachedB_false {s : UESession} (h : s.state ≠ UEState.attached) :
    isAttachedB s = false := by
  unfold isAttachedB
  cases hs : s.state with
  | attached => exact absurd hs h
  | attaching => rfl
  | detached => rfl

/-! ## Combined detach/removed stage lemmas -/

theorem detach_removed_skip {st2 : SessState} {l X : Line}
    (hdet : searchL matchDetachAt l ≠ some X)
    (hrem : ∀ apn, searchL matchRemovedAt l ≠ some (X, apn)) :
    lookupD X (stepRemoved (stepDetach st2 l) l).sessions =
      lookupD X st2.sessions := by
  have e3 : lookupD X (stepDetach st2 l).sessions = lookupD X st2.sessions := by
    cases hD : searchL matchDetachAt l with
    | none => rw [stepDetach_of_none hD]
    | some imsi =>
        have hne : X ≠ imsi := fun he => hdet (by rw [he]; exact hD)
        rw [stepDetach_eq hD]
        exact lookupD_modifyD_ne hne _ _
  cases hR : searchL matchRemovedAt l with
  | none => rw [stepRemoved_of_none hR, e3]
  | some p =>
      obtain ⟨imsi, apn⟩ := p
      have hne : X ≠ imsi := fun he => hrem apn (by rw [he]; exact hR)
      by_cases hm : (lookupD imsi (stepDetach st2 l).sessions).isSome
      · rw [stepRemoved_of_mem hR hm]
        show lookupD X (modifyD imsi _ (stepDetach st2 l).sessions) = _
        rw [lookupD_modifyD_ne hne]
        exact e3
      · rw [stepRemoved_of_absent hR (Option.not_isSome_iff_eq_none.mp hm)]
        exact e3

theorem detach_removed_preserve {st2 : SessState} {l imsi : Line} {P : UESession → Prop}
    (hP : ∀ s, P s → P { s with state := UEState.detached })
    (hP2 : ∀ s apn, P s → P { s with apn := apn, state := UEState.detached })
    (h : ∃ s, lookupD imsi st2.sessions = some s ∧ P s) :
    ∃ s, lookupD imsi (stepRemoved (stepDetach st2 l) l).sessions = some s ∧ P s := by
  have h3 : ∃ s, lookupD imsi (stepDetach st2 l).sessions = some s ∧ P s := by
    cases hD : searchL matchDetachAt l with
    | none => rw [stepDetach_of_none hD]; exact h
    | some imsi' =>
        rw [stepDetach_eq hD]
        obtain ⟨s, hs, hPs⟩ := h
        by_cases hne : imsi = imsi'
        · subst hne
          refine ⟨{ s with state := UEState.detached }, ?_, hP s hPs⟩
          show lookupD imsi (modifyD imsi _ st2.sessions) = _
          rw [lookupD_modifyD_self, hs]
          rfl
        · refine ⟨s, ?_, hPs⟩
          show lookupD imsi (modifyD imsi' _ st2.sessions) = some s
          rw [lookupD_modifyD_ne hne]
          exact hs
  cases hR : searchL matchRemovedAt l with
  | none => rw [stepRemoved_of_none hR]; exact h3
  | some p =>
      obtain ⟨imsi', apn⟩ := p
      by_cases hm : (lookupD imsi' (stepDetach st2 l).sessions).isSome
      · rw [stepRemoved_of_mem hR hm]
        obtain ⟨s, hs, hPs⟩ := h3
        by_cases hne : imsi = imsi'
        · subst hne
          refine ⟨{ s with apn := apn, state := UEState.detached }, ?_, hP2 s apn hPs⟩
          show lookupD imsi (modifyD imsi _ (stepDetach st2 l).sessions) = _
          rw [lookupD_modifyD_self, hs]
          rfl
        · refine ⟨s, ?_, hPs⟩
          show lookupD imsi (modifyD imsi' _ (stepDetach st2 l).sessions) = some s
          rw [lookupD_modifyD_ne hne]
          exact hs
      · rw [stepRemoved_of_absent hR (Option.not_isSome_iff_eq_none.mp hm)]
        exact h3

/-! ## Full-iteration session lemmas -/

theorem lookup_stepSess_comp (st : SessState) {l X : Line}
    (hA : searchL matchAttachAt l = some (X, AttachEv.comp))
    (hdet : searchL matchDetachAt l ≠ some X)
    (hrem : ∀ apn, searchL matchRemovedAt l ≠ some (X, apn)) :
    ∃ s, lookupD X (stepSess st l).sessions = some s ∧
      s.state = UEState.attached ∧ s.attached_at = extractTimestamp l := by
  unfold stepSess
  rw [stepCounts_sessions, detach_removed_skip hdet hrem]
  obtain ⟨s, hs, hstate, hts, _⟩ := lookup_stepAttach_self (stepCtx st l) hA
  exact ⟨s, hs, hstate, hts rfl⟩

theorem lookup_stepSess_removed_mem (st : SessState) {l X apn : Line}
    (hR : searchL matchRemovedAt l = some (X, apn))
    (hm : (lookupD X st.sessions).isSome = true) :
    ∃ s, lookupD X (stepSess st l).sessions = some s ∧
      s.apn = apn ∧ s.state = UEState.detached := by
  unfold stepSess
  rw [stepCounts_sessions]
  have hm1 : (lookupD X (stepCtx st l).sessions).isSome = true := by
    rwa [stepCtx_sessions]
  have hm2 : (lookupD X (stepAttach (stepCtx st l) l).sessions).isSome = true := by
    cases hA : searchL matchAttachAt l with
    | none => rwa [stepAttach_of_none hA]
    | some p =>
        obtain ⟨imsi, ev⟩ := p
        by_cases hne : X = imsi
        · subst hne
          obtain ⟨s, hs, _, _, _⟩ := lookup_stepAttach_self (stepCtx st l) hA
          rw [hs]
          rfl
        · rwa [lookup_stepAttach_ne hA hne]
  have hm3 : (lookupD X (stepDetach (stepAttach (stepCtx st l) l) l).sessions).isSome = true := by
    cases hD : searchL matchDetachAt l with
    | none => rwa [stepDetach_of_none hD]
    | some imsi =>
        rw [stepDetach_eq hD]
        show (lookupD X (modifyD imsi _ _)).isSome = true
        rwa [lookupD_modifyD_isSome]
  rw [stepRemoved_of_mem hR hm3]
  show ∃ s, lookupD X (modifyD X _ (stepDetach (stepAttach (stepCtx st l) l) l).sessions) = some s ∧ _
  rw [lookupD_modifyD_self]
  cases hw : lookupD X (stepDetach (stepAttach (stepCtx st l) l) l).sessions with
  | none => rw [hw] at hm3; cases hm3
  | some w => exact ⟨{ w with apn := apn, state := UEState.detached }, rfl, rfl, rfl⟩

theorem lookup_none_stepSess {st : SessState} {l X : Line}
    (hatt : ∀ ev, searchL matchAttachAt l ≠ some (X, ev))
    (h : lookupD X st.sessions = none) :
    lookupD X (stepSess st l).sessions = none := by
  unfold stepSess
  rw [stepCounts_sessions]
  have h1 : lookupD X (stepCtx st l).sessions = none := by
    rwa [stepCtx_sessions]
  have h2 : lookupD X (stepAttach (stepCtx st l) l).sessions = none := by
    cases hA : searchL matchAttachAt l with
    | none => rwa [stepAttach_of_none hA]
    | some p =>
        obtain ⟨imsi, ev⟩ := p
        have hne : X ≠ imsi := fun he => hatt ev (by rw [he]; exact hA)
        rwa [lookup_stepAttach_ne hA hne]
  have h3 : lookupD X (stepDetach (stepAttach (stepCtx st l) l) l).sessions = none := by
    cases hD : searchL matchDetachAt l with
    | none => rwa [stepDetach_of_none hD]
    | some imsi =>
        rw [stepDetach_eq hD]
        by_cases hne : X = imsi
        · subst hne
          show lookupD X (modifyD X _ _) = none
          rw [lookupD_modifyD_self, h2]
          rfl
        · show lookupD X (modifyD imsi _ _) = none
          rwa [lookupD_modifyD_ne hne]
  cases hR : searchL matchRemovedAt l with
  | none => rwa [stepRemoved_of_none hR]
  | some p =>
      obtain ⟨imsi, apn⟩ := p
      by_cases hm : (lookupD imsi (stepDetach (stepAttach (stepCtx st l) l) l).sessions).isSome
      · rw [stepRemoved_of_mem hR hm]
        by_cases hne : X = imsi
        · subst hne
          show lookupD X (modifyD X _ _) = none
          rw [lookupD_modifyD_self, h3]
          rfl
        · show lookupD X (modifyD imsi _ _) = none
          rwa [lookupD_modifyD_ne hne]
      · rwa [stepRemoved_of_absent hR (Option.not_isSome_iff_eq_none.mp hm)]

theorem lookup_none_foldl {X : Line} (lines : List Line) :
    ∀ st : SessState,
      (∀ l ∈ lines, ∀ ev, searchL matchAttachAt l ≠ some (X, ev)) →
      lookupD X st.sessions = none →
      lookupD X (List.foldl stepSess st lines).sessions = none := by
  induction lines with
  | nil => intro st _ h; exact h
  | cons l ls ih =>
      intro st hl h
      rw [List.foldl_cons]
      exact ih (stepSess st l) (fun l' hl' => hl l' (List.mem_cons_of_mem l hl'))
        (lookup_none_stepSess (hl l (List.mem_cons_self l ls)) h)

theorem parseUeWindow_excluded_of_nonattached {lines : List Line} {X : Line}
    (hne : lines ≠ []) (h : nonattachedAt X (foldSess lines).sessions) :
    lookupD X (parseUeWindow lines) = none := by
  rw [parseUeWindow_eq hne]
  cases hv : lookupD X (foldSess lines).sessions with
  | none => exact lookupD_filter_of_none hv
  | some v =>
      exact lookupD_filter_of_false_nodup (nodup_keys_foldSess lines) hv
        (isAttachedB_false (h v hv))

theorem parseUeWindow_not_attached {lines : List Line} {X : Line}
    (h : ∀ l ∈ lines, searchL matchAttachAt l ≠ some (X, AttachEv.comp)) :
    lookupD X (parseUeWindow lines) = none := by
  by_cases hne : lines = []
  · subst hne
    rfl
  · refine parseUeWindow_excluded_of_nonattached hne ?_
    refine nonattachedAt_foldl lines initSessState h ?_
    intro v hv
    cases hv

theorem attached_after_comp (pre ys : List Line) (comp : Line) (X : Line)
    (hA : searchL matchAttachAt comp = some (X, AttachEv.comp))
    (hdet : searchL matchDetachAt comp ≠ some X)
    (hrem : ∀ apn, searchL matchRemovedAt comp ≠ some (X, apn))
    (hys : ∀ l ∈ ys, (∀ ev, searchL matchAttachAt l ≠ some (X, ev)) ∧
      searchL matchDetachAt l ≠ some X ∧
      (∀ apn, searchL matchRemovedAt l ≠ some (X, apn))) :
    ∃ s, lookupD X (parseUeWindow (pre ++ comp :: ys)) = some s ∧
      s.state = UEState.attached ∧ s.attached_at = extractTimestamp comp := by
  have hne : pre ++ comp :: ys ≠ [] := by simp
  obtain ⟨s, hs, hst, hts⟩ :=
    lookup_stepSess_comp (List.foldl stepSess initSessState pre) hA hdet hrem
  have hfold : foldSess (pre ++ comp :: ys) =
      List.foldl stepSess (stepSess (List.foldl stepSess initSessState pre) comp) ys := by
    unfold foldSess
    rw [List.foldl_append, List.foldl_cons]
  have hlook : lookupD X (foldSess (pre ++ comp :: ys)).sessions = some s := by
    rw [hfold, lookup_foldl_irrelevant ys _ hys, hs]
  rw [parseUeWindow_eq hne]
  refine ⟨s, lookupD_filter_of_some hlook ?_, hst, hts⟩
  show isAttachedB s = true
  unfold isAttachedB
  rw [hst]

theorem stepSess_pending_of_ctx_none {st : SessState} {l : Line}
    (hctx : searchL matchCtxAt l = none) :
    (stepSess st l).pending = st.pending := by
  unfold stepSess
  rw [stepCounts_pending, stepRemoved_pending, stepDetach_pending, stepAttach_pending,
    stepCtx_of_none hctx]


/-! ## Spec-side counter characterization (refinement target for C7) -/

/-- The value carried by the last eNB-UE counter-update line of the window,
zero when none is present (stated from the spec wording, to be compared with
the parser). -/
def lastEnbUeOfWindow (lines : List Line) : Nat :=
  lines.foldl (fun a l => match searchL matchEnbUeCountAt l with
    | some n => n
    | none => a) 0

/-- The value carried by the last MME-session counter-update line of the
window, zero when none is present. -/
def lastSessOfWindow (lines : List Line) : Nat :=
  lines.foldl (fun a l => match searchL matchMmeSessCountAt l with
    | some n => n
    | none => a) 0

theorem parse_ue_counts {st : ParserSt} {lines : List Line} (hne : lines ≠ [])
    (hlen : lines.length ≤ PARSE_UE_SESSIONS_DEFAULT) :
    (parse_ue_sessions st (FileSt.content lines) PARSE_UE_SESSIONS_DEFAULT).2.enbUeCount =
      lastEnbUeOfWindow lines ∧
    (parse_ue_sessions st (FileSt.content lines) PARSE_UE_SESSIONS_DEFAULT).2.mmeSessionCount =
      lastSessOfWindow lines := by
  unfold parse_ue_sessions
  rw [readLogLines_of_le hlen, if_neg hne]
  constructor
  · show (foldSess lines).lastEnbUe = lastEnbUeOfWindow lines
    unfold foldSess lastEnbUeOfWindow
    exact foldl_lastEnbUe lines initSessState
  · show (foldSess lines).lastSess = lastSessOfWindow lines
    unfold foldSess lastSessOfWindow
    exact foldl_lastSess lines initSessState

/-- `o = none` refutes every `o = some x`. -/
theorem none_ne_some {α : Type} {o : Option α} (h : o = none) (x : α) : o ≠ some x := by
  intro hx
  rw [h] at hx
  cases hx

/-! ## Concrete log lines used by the claim instances -/

def ipA : Line := "10.0.1.5".data
def imsiA : Line := "315010000000001".data
def imsiB : Line := "315010000000002".data
def accLineFull : Line := "eNB-S1 accepted[10.0.1.5]:3223".data
def streamsLineFull : Line := "eNB-S1[10.0.1.5] max_num_of_ostreams : 8".data
def refLineFull : Line := "eNB-S1[10.0.1.5] connection refused!!!".data
def attachReqA : Line := "[315010000000001] Attach request".data
def attachCompA : Line := "[315010000000001] Attach complete".data
def attachCompTs : Line := "10/05 12:30:45.123 [315010000000001] Attach complete".data
def detachA : Line := "[315010000000001] Detach request".data
def removedA : Line := "Removed Session: UE IMSI:[315010000000001] APN:[ims]".data
def removedB : Line := "Removed Session: UE IMSI:[315010000000002] APN:[internet]".data
def ctxLineA : Line := "IMSI[315010000000001] ENB_UE_S1AP_ID[167] MME_UE_S1AP_ID[36]".data
def cntLine5 : Line := "[Added] Number of eNB-UEs is now 5".data
def c7Lines : List Line := [cntLine5]

/-- The five lines exactly as the spec's end-to-end scenario writes them. -/
def c1Lines : List Line :=
  ["accepted[10.0.1.5]:3223".data,
   "[10.0.1.5] max_num_of_ostreams : 8".data,
   attachReqA, attachCompA, removedB]

/-- The same scenario with the `eNB-S1` tokens the patterns actually
require. -/
def c1LinesFull : List Line :=
  [accLineFull, streamsLineFull, attachReqA, attachCompA, removedB]

/-- The connection that folding `accLineFull` produces. -/
def c8Conn : S1APConnection :=
  { enb_id := "eNB-10-0-1-5".data, ip_address := ipA, port := 3223,
    connected_at := none, is_connected := true, sctp_streams := none }

def stWithConn : ConnState := List.foldl stepConn initConnState [accLineFull]


/-! ## Claim C1 -/

/-- C1 counterexample: on the five lines exactly as the claim writes them, the
connection query returns no base station at all (the `eNB-S1` tokens required
by `S1AP_ACCEPTED_PATTERN` and `SCTP_STREAMS_PATTERN` are missing), so the
claimed "exactly one connected base station" is false.  The session half of
the scenario does hold on those lines. -/
theorem c1_counterexample :
    get_connected_enodebs (FileSt.content c1Lines) = [] ∧
    (parse_ue_sessions initParser (FileSt.content c1Lines) PARSE_UE_SESSIONS_DEFAULT).1.map Prod.fst = [imsiA] := by
  constructor
  · decide
  · decide

/-- C1 (amended): with the `eNB-S1` tokens the patterns require —
`eNB-S1 accepted[10.0.1.5]:3223` and `eNB-S1[10.0.1.5] max_num_of_ostreams : 8`
— the connection query returns exactly one connected base station with address
10.0.1.5, port 3223 and substream count 8, the session query returns exactly
one attached session with identifier 315010000000001, and identifier
315010000000002 is absent from the attached list. -/
theorem c1_amended_theorem :
    (get_connected_enodebs (FileSt.content c1LinesFull)).map
        (fun c => (c.ip_address, c.port, c.sctp_streams)) = [(ipA, 3223, some 8)] ∧
    (parse_ue_sessions initParser (FileSt.content c1LinesFull) PARSE_UE_SESSIONS_DEFAULT).1.map Prod.fst = [imsiA] ∧
    lookupD imsiB (parse_ue_sessions initParser (FileSt.content c1LinesFull) PARSE_UE_SESSIONS_DEFAULT).1 = none := by
  refine ⟨?_, ?_, ?_⟩
  · decide
  · decide
  · decide

/-! ## Claim C2 -/

/-- C2 counterexample: an existing-but-unreadable log file makes
`is_available` true (`Path.exists`/`is_file` succeed although the read fails),
not false as claimed; and with the file missing, `get_ue_count` returns the
counter stored by a previous parse (here 5), not zero, because
`parse_ue_sessions` returns before writing the counters when the read is
empty. -/
theorem c2_counterexample :
    is_available FileSt.unreadable = true ∧
    (get_ue_count (parse_ue_sessions initParser (FileSt.content c7Lines) PARSE_UE_SESSIONS_DEFAULT).2 FileSt.missing).1 = 5 := by
  constructor
  · rfl
  · decide

/-- C2 (amended): when the log file is missing, `is_available` is false; when
it exists but cannot be read, `is_available` is true.  In both cases every
list-returning query returns the empty list, `get_enb_count` returns zero, no
exception is raised (all embedded queries are total), and the UE/session count
queries return the parser's stored counters — zero for a freshly constructed
parser. -/
theorem c2_amended_theorem :
    ∀ (st : ParserSt) (fs : FileSt), fs = FileSt.missing ∨ fs = FileSt.unreadable →
      is_available FileSt.missing = false ∧
      is_available FileSt.unreadable = true ∧
      get_connected_enodebs fs = [] ∧
      (get_ue_sessions st fs).1 = [] ∧
      get_enb_count fs = 0 ∧
      (get_ue_count st fs).1 = st.enbUeCount ∧
      (get_session_count st fs).1 = st.mmeSessionCount ∧
      (get_ue_count initParser fs).1 = 0 ∧
      (get_session_count initParser fs).1 = 0 := by
  intro st fs h
  rcases h with rfl | rfl
  · exact ⟨rfl, rfl, rfl, rfl, rfl, rfl, rfl, rfl, rfl⟩
  · exact ⟨rfl, rfl, rfl, rfl, rfl, rfl, rfl, rfl, rfl⟩

/-- Witness for C2: the amended theorem applied to a parser with stored
counters 5 and 7 and a missing file. -/
theorem c2_amended_witness :
    is_available FileSt.missing = false ∧
    is_available FileSt.unreadable = true ∧
    get_connected_enodebs FileSt.missing = [] ∧
    (get_ue_sessions (ParserSt.mk 5 7) FileSt.missing).1 = [] ∧
    get_enb_count FileSt.missing = 0 ∧
    (get_ue_count (ParserSt.mk 5 7) FileSt.missing).1 = (ParserSt.mk 5 7).enbUeCount ∧
    (get_session_count (ParserSt.mk 5 7) FileSt.missing).1 = (ParserSt.mk 5 7).mmeSessionCount ∧
    (get_ue_count initParser FileSt.missing).1 = 0 ∧
    (get_session_count initParser FileSt.missing).1 = 0 :=
  c2_amended_theorem (ParserSt.mk 5 7) FileSt.missing (Or.inl rfl)

/-! ## Claim C3 -/

/-- C3: later connection events override earlier ones for the same address.
If a refused line for `ip` has no later accepted line for `ip`, the address is
absent from the returned connected dictionary; if an accepted line for `ip`
has no refused line for `ip` on it or after it, the address is present. -/
theorem c3_order_override :
    (∀ (xs ys : List Line) (r ip : Line), searchL matchRefusedAt r = some ip →
       (∀ l ∈ ys, ∀ pt, searchL matchAcceptedAt l ≠ some (ip, pt)) →
       lookupD ip (parseLogsWindow (xs ++ r :: ys)) = none) ∧
    (∀ (xs ys : List Line) (a ip : Line) (pt : Nat),
       searchL matchAcceptedAt a = some (ip, pt) →
       (∀ l ∈ a :: ys, searchL matchRefusedAt l ≠ some ip) →
       (lookupD ip (parseLogsWindow (xs ++ a :: ys))).isSome = true) := by
  constructor
  · intro xs ys r ip hR hacc
    have hne : xs ++ r :: ys ≠ [] := by simp
    rw [parseLogsWindow_eq hne]
    refine connResult_lookup_none_of_refused ?_
    have hfold : List.foldl stepConn initConnState (xs ++ r :: ys) =
        List.foldl stepConn (stepConn (List.foldl stepConn initConnState xs) r) ys := by
      rw [List.foldl_append, List.foldl_cons]
    rw [hfold]
    exact memS_refused_foldConn ys _ hacc (memS_refused_after_refuse hR)
  · intro xs ys a ip pt hA href
    have hne : xs ++ a :: ys ≠ [] := by simp
    rw [parseLogsWindow_eq hne]
    have hfold : List.foldl stepConn initConnState (xs ++ a :: ys) =
        List.foldl stepConn (stepConn (List.foldl stepConn initConnState xs) a) ys := by
      rw [List.foldl_append, List.foldl_cons]
    rw [hfold]
    have hca : connectedAt ip (stepConn (List.foldl stepConn initConnState xs) a) :=
      connectedAt_after_accept hA (href a (List.mem_cons_self a ys))
    have hcf : connectedAt ip
        (List.foldl stepConn (stepConn (List.foldl stepConn initConnState xs) a) ys) :=
      connectedAt_foldConn ys _ (fun l hl => href l (List.mem_cons_of_mem a hl)) hca
    obtain ⟨c, hc, _⟩ := connResult_lookup_of_connectedAt hcf
    rw [hc]
    rfl

/-- Witness for C3: refused after accepted for 10.0.1.5 leaves the address
out; accepted after refused puts it in. -/
theorem c3_order_override_witness :
    lookupD ipA (parseLogsWindow [accLineFull, refLineFull]) = none ∧
    (lookupD ipA (parseLogsWindow [refLineFull, accLineFull])).isSome = true :=
  ⟨c3_order_override.1 [accLineFull] [] refLineFull ipA (by decide)
      (fun l hl pt => absurd hl (List.not_mem_nil l)),
   c3_order_override.2 [refLineFull] [] accLineFull ipA 3223 (by decide) (by decide)⟩

/-! ## Claim C4 -/

/-- C4 counterexample: the claim fails as stated.  First, a window containing
Attach request then Attach complete followed by a Detach request for the same
identifier yields an empty attached map, though the claim requires the
identifier to be included.  Second, when the Attach complete line carries no
timestamp token, the identifier is included but its attach timestamp is
`None`, though the claim says the timestamp is set. -/
theorem c4_counterexample :
    (parse_ue_sessions initParser (FileSt.content [attachReqA, attachCompA, detachA]) PARSE_UE_SESSIONS_DEFAULT).1 = [] ∧
    (parse_ue_sessions initParser (FileSt.content [attachReqA, attachCompA]) PARSE_UE_SESSIONS_DEFAULT).1.map (fun p => p.2.attached_at) = [none] := by
  constructor
  · decide
  · decide

/-- C4 (amended): an identifier whose window contains an Attach request line
later followed by an Attach complete line, with no subsequent attach, detach
or session-removal line for it, ends attached and is included in the returned
attached map; its attach timestamp equals the timestamp extracted from the
Attach complete line (absent when that line carries no valid timestamp token).
An identifier for which no Attach complete line appears anywhere in the window
is excluded from the returned map. -/
theorem c4_amended_theorem :
    (∀ (x1 x2 ys : List Line) (req comp X : Line),
       searchL matchAttachAt req = some (X, AttachEv.req) →
       searchL matchAttachAt comp = some (X, AttachEv.comp) →
       searchL matchDetachAt comp ≠ some X →
       (∀ apn, searchL matchRemovedAt comp ≠ some (X, apn)) →
       (∀ l ∈ ys, (∀ ev, searchL matchAttachAt l ≠ some (X, ev)) ∧
         searchL matchDetachAt l ≠ some X ∧
         (∀ apn, searchL matchRemovedAt l ≠ some (X, apn))) →
       ∃ s, lookupD X (parseUeWindow (x1 ++ req :: x2 ++ comp :: ys)) = some s ∧
         s.state = UEState.attached ∧ s.attached_at = extractTimestamp comp) ∧
    (∀ (lines : List Line) (X : Line),
       (∀ l ∈ lines, searchL matchAttachAt l ≠ some (X, AttachEv.comp)) →
       lookupD X (parseUeWindow lines) = none) := by
  constructor
  · intro x1 x2 ys req comp X _hreq hA hdet hrem hys
    have heq : (x1 ++ req :: x2) ++ comp :: ys = x1 ++ req :: x2 ++ comp :: ys := by
      simp
    have h := attached_after_comp (x1 ++ req :: x2) ys comp X hA hdet hrem hys
    rwa [heq] at h
  · intro lines X h
    exact parseUeWindow_not_attached h

/-- Witness for C4: request then a timestamped complete give an attached
session carrying that timestamp; a lone request is excluded. -/
theorem c4_amended_witness :
    (∃ s, lookupD imsiA (parseUeWindow ([] ++ attachReqA :: [] ++ attachCompTs :: [])) = some s ∧
      s.state = UEState.attached ∧ s.attached_at = extractTimestamp attachCompTs) ∧
    lookupD imsiA (parseUeWindow [attachReqA]) = none :=
  ⟨c4_amended_theorem.1 [] [] [] attachReqA attachCompTs imsiA (by decide) (by decide)
      (none_ne_some (by decide) imsiA)
      (fun apn => none_ne_some (by decide) (imsiA, apn))
      (fun l hl => absurd hl (List.not_mem_nil l)),
   c4_amended_theorem.2 [attachReqA] imsiA (by decide)⟩

/-! ## Claim C5 -/

/-- C5 counterexample: after a context line for 315010000000001 and the next
attach event for it, the pending-context side-table still holds the entry
(167, 36) — the code never deletes from `pending_context` — although the
claim says the entry is discarded once consumed.  The values were indeed
copied onto the session. -/
theorem c5_counterexample :
    lookupD imsiA (foldSess [ctxLineA, attachReqA]).pending = some (167, 36) ∧
    (lookupD imsiA (foldSess [ctxLineA, attachReqA]).sessions).map
      (fun s => (s.enb_ue_s1ap_id, s.mme_ue_s1ap_id)) = some (some 167, some 36) := by
  constructor
  · decide
  · decide

/-- C5 (amended): a pending-context entry recorded for an identifier is copied
onto the session at the next attach event folded for that identifier, and is
retained in the side-table rather than discarded (it is re-applied,
idempotently, at later attach events); the table only disappears with the
window, being rebuilt on every call. -/
theorem c5_amended_theorem :
    ∀ (st : SessState) (l imsi : Line) (e m : Nat) (ev : AttachEv),
      searchL matchCtxAt l = none →
      lookupD imsi st.pending = some (e, m) →
      searchL matchAttachAt l = some (imsi, ev) →
      lookupD imsi (stepSess st l).pending = some (e, m) ∧
      ∃ s, lookupD imsi (stepSess st l).sessions = some s ∧
        s.enb_ue_s1ap_id = some e ∧ s.mme_ue_s1ap_id = some m := by
  intro st l imsi e m ev hctx hp hA
  constructor
  · rw [stepSess_pending_of_ctx_none hctx]
    exact hp
  · unfold stepSess
    rw [stepCounts_sessions]
    have hstep : ∃ s, lookupD imsi (stepAttach (stepCtx st l) l).sessions = some s ∧
        s.enb_ue_s1ap_id = some e ∧ s.mme_ue_s1ap_id = some m := by
      obtain ⟨s, hs, _, _, hids⟩ := lookup_stepAttach_self (stepCtx st l) hA
      have hp' : lookupD imsi (stepCtx st l).pending = some (e, m) := by
        rw [stepCtx_of_none hctx]
        exact hp
      obtain ⟨h1, h2⟩ := hids e m hp'
      exact ⟨s, hs, h1, h2⟩
    exact detach_removed_preserve (fun s hs => hs) (fun s apn hs => hs) hstep

/-- Witness for C5: the amended theorem at a state built from one context line,
stepped over an attach-request line. -/
theorem c5_amended_witness :
    lookupD imsiA (stepSess (foldSess [ctxLineA]) attachReqA).pending = some (167, 36) ∧
    ∃ s, lookupD imsiA (stepSess (foldSess [ctxLineA]) attachReqA).sessions = some s ∧
      s.enb_ue_s1ap_id = some 167 ∧ s.mme_ue_s1ap_id = some 36 :=
  c5_amended_theorem (foldSess [ctxLineA]) attachReqA imsiA 167 36 AttachEv.req
    (by decide) (by decide) (by decide)

/-! ## Claim C6 -/

/-- C6: a `Removed Session: UE IMSI:[X] APN:[Y]` line, folded while a session
for X exists, sets Y as X's network name and puts X into the detached state;
with no later attach event for X in the window, X is excluded from the
returned attached map — no prior explicit Detach-request line is needed. -/
theorem c6_removed_session :
    ∀ (pre post : List Line) (l X apn : Line),
      searchL matchRemovedAt l = some (X, apn) →
      (lookupD X (List.foldl stepSess initSessState pre).sessions).isSome = true →
      (∀ l' ∈ post, ∀ ev, searchL matchAttachAt l' ≠ some (X, ev)) →
      (∃ s, lookupD X (List.foldl stepSess initSessState (pre ++ [l])).sessions = some s ∧
        s.apn = apn ∧ s.state = UEState.detached) ∧
      lookupD X (parseUeWindow (pre ++ l :: post)) = none := by
  intro pre post l X apn hR hm hpost
  obtain ⟨s, hs, hapn, hstate⟩ :=
    lookup_stepSess_removed_mem (List.foldl stepSess initSessState pre) hR hm
  constructor
  · refine ⟨s, ?_, hapn, hstate⟩
    rw [List.foldl_append, List.foldl_cons, List.foldl_nil]
    exact hs
  · have hne : pre ++ l :: post ≠ [] := by simp
    refine parseUeWindow_excluded_of_nonattached hne ?_
    have hfold : foldSess (pre ++ l :: post) =
        List.foldl stepSess (stepSess (List.foldl stepSess initSessState pre) l) post := by
      unfold foldSess
      rw [List.foldl_append, List.foldl_cons]
    rw [hfold]
    refine nonattachedAt_foldl post _ (fun l' hl' => hpost l' hl' AttachEv.comp) ?_
    intro v hv
    rw [hs] at hv
    obtain rfl : s = v := by injection hv
    rw [hstate]
    decide

/-- Witness for C6: after attach request and complete for 315010000000001, a
session-removed line with APN `ims` detaches it, records the APN, and keeps it
out of the attached map. -/
theorem c6_removed_session_witness :
    (∃ s, lookupD imsiA (List.foldl stepSess initSessState ([attachReqA, attachCompA] ++ [removedA])).sessions = some s ∧
      s.apn = "ims".data ∧ s.state = UEState.detached) ∧
    lookupD imsiA (parseUeWindow ([attachReqA, attachCompA] ++ removedA :: [])) = none :=
  c6_removed_session [attachReqA, attachCompA] [] removedA imsiA "ims".data
    (by decide) (by decide) (fun l hl ev => absurd hl (List.not_mem_nil l))

/-! ## Claim C7 -/

/-- C7: `get_ue_count` and `get_session_count` return the value carried by the
last counter-update line of the respective kind in the window (zero when none
is present, as on a freshly constructed parser), independently of the
attached-session map; on the concrete window `c7Lines` the counter is 5 while
the attached map is empty, so the two can differ. -/
theorem c7_counters :
    (∀ (st : ParserSt) (lines : List Line), lines ≠ [] →
      lines.length ≤ PARSE_UE_SESSIONS_DEFAULT →
      (get_ue_count st (FileSt.content lines)).1 = lastEnbUeOfWindow lines ∧
      (get_session_count st (FileSt.content lines)).1 = lastSessOfWindow lines) ∧
    (∀ lines : List Line, lines.length ≤ PARSE_UE_SESSIONS_DEFAULT →
      (get_ue_count initParser (FileSt.content lines)).1 = lastEnbUeOfWindow lines ∧
      (get_session_count initParser (FileSt.content lines)).1 = lastSessOfWindow lines) ∧
    ((get_ue_count initParser (FileSt.content c7Lines)).1 = 5 ∧
     (get_ue_sessions initParser (FileSt.content c7Lines)).1.length = 0 ∧
     (get_ue_count initParser (FileSt.content c7Lines)).1 ≠
       (get_ue_sessions initParser (FileSt.content c7Lines)).1.length) := by
  have core : ∀ (st : ParserSt) (lines : List Line), lines ≠ [] →
      lines.length ≤ PARSE_UE_SESSIONS_DEFAULT →
      (get_ue_count st (FileSt.content lines)).1 = lastEnbUeOfWindow lines ∧
      (get_session_count st (FileSt.content lines)).1 = lastSessOfWindow lines := by
    intro st lines hne hlen
    exact parse_ue_counts hne hlen
  refine ⟨core, ?_, ?_, ?_, ?_⟩
  · intro lines hlen
    by_cases hne : lines = []
    · subst hne
      exact ⟨rfl, rfl⟩
    · exact core initParser lines hne hlen
  · decide
  · decide
  · decide

/-- Witness for C7: the universally quantified part applied to a parser with
stale counters and the one-line counter window. -/
theorem c7_counters_witness :
    (get_ue_count (ParserSt.mk 1 2) (FileSt.content c7Lines)).1 = lastEnbUeOfWindow c7Lines ∧
    (get_session_count (ParserSt.mk 1 2) (FileSt.content c7Lines)).1 = lastSessOfWindow c7Lines :=
  c7_counters.1 (ParserSt.mk 1 2) c7Lines (by decide) (by decide)

/-! ## Claim C8 -/

/-- C8: a substream-count line (matching no accept or refuse pattern) for an
address with no existing connection leaves the whole connection state
unchanged; for an address with an existing connection it changes only that
connection's substream count, leaving the refused set and every other
address's entry untouched. -/
theorem c8_streams_frame :
    ∀ (st : ConnState) (l ip : Line) (n : Nat),
      searchL matchStreamsAt l = some (ip, n) →
      searchL matchAcceptedAt l = none →
      searchL matchRefusedAt l = none →
      (lookupD ip st.connections = none → stepConn st l = st) ∧
      (∀ c, lookupD ip st.connections = some c →
        (stepConn st l).refused = st.refused ∧
        lookupD ip (stepConn st l).connections = some { c with sctp_streams := some n } ∧
        ∀ a, a ≠ ip → lookupD a (stepConn st l).connections = lookupD a st.connections) := by
  intro st l ip n hS hA hR
  constructor
  · intro hab
    exact stepConn_streams_absent hS hA hR hab
  · intro c hc
    have hm : (lookupD ip st.connections).isSome = true := by
      rw [hc]
      rfl
    rw [stepConn_streams_mem hS hA hR hm]
    refine ⟨rfl, ?_, ?_⟩
    · show lookupD ip (modifyD ip _ st.connections) = _
      rw [lookupD_modifyD_self, hc]
      rfl
    · intro a ha
      exact lookupD_modifyD_ne ha _ _

/-- Witness for C8: on the empty state the stream line is a no-op; on a state
holding the accepted connection it only sets that connection's substream
count to 8. -/
theorem c8_streams_frame_witness :
    stepConn initConnState streamsLineFull = initConnState ∧
    lookupD ipA (stepConn stWithConn streamsLineFull).connections =
      some { c8Conn with sctp_streams := some 8 } :=
  ⟨(c8_streams_frame initConnState streamsLineFull ipA 8 (by decide) (by decide) (by decide)).1
      (by decide),
   ((c8_streams_frame stWithConn streamsLineFull ipA 8 (by decide) (by decide) (by decide)).2
      c8Conn (by decide)).2.1⟩

/-! ## Claim C9 -/

/-- C9 counterexample: the default trailing-window sizes of the two query
kinds are equal — both `parse_logs` and `parse_ue_sessions` declare
`lines_to_read: int = 2000` — refuting the claim that they differ. -/
theorem c9_counterexample : PARSE_LOGS_DEFAULT = PARSE_UE_SESSIONS_DEFAULT := rfl

/-- C9 (amended): the two query kinds use the same default trailing-window
size, 2000 lines. -/
theorem c9_amended_theorem :
    PARSE_LOGS_DEFAULT = 2000 ∧ PARSE_UE_SESSIONS_DEFAULT = 2000 :=
  ⟨rfl, rfl⟩

/-! ## Claim C10 -/

/-- C10: when an identifier's only attach/detach/removal line in the window is
an Attach complete (no prior Attach request), no session for it exists before
that line is folded, and the line creates one directly in the attached state,
included in the returned map, with attach timestamp exactly what the line's
timestamp token yields (absent when the line carries none). -/
theorem c10_complete_only :
    ∀ (xs ys : List Line) (comp X : Line),
      searchL matchAttachAt comp = some (X, AttachEv.comp) →
      searchL matchDetachAt comp ≠ some X →
      (∀ apn, searchL matchRemovedAt comp ≠ some (X, apn)) →
      (∀ l ∈ xs, ∀ ev, searchL matchAttachAt l ≠ some (X, ev)) →
      (∀ l ∈ ys, (∀ ev, searchL matchAttachAt l ≠ some (X, ev)) ∧
        searchL matchDetachAt l ≠ some X ∧
        (∀ apn, searchL matchRemovedAt l ≠ some (X, apn))) →
      lookupD X (List.foldl stepSess initSessState xs).sessions = none ∧
      ∃ s, lookupD X (parseUeWindow (xs ++ comp :: ys)) = some s ∧
        s.state = UEState.attached ∧ s.attached_at = extractTimestamp comp := by
  intro xs ys comp X hA hdet hrem hxs hys
  constructor
  · exact lookup_none_foldl xs initSessState hxs rfl
  · exact attached_after_comp xs ys comp X hA hdet hrem hys

/-- Witness for C10: a window holding only the (timestampless) Attach complete
line yields an attached session with no timestamp. -/
theorem c10_complete_only_witness :
    lookupD imsiA (List.foldl stepSess initSessState []).sessions = none ∧
    ∃ s, lookupD imsiA (parseUeWindow ([] ++ attachCompA :: [])) = some s ∧
      s.state = UEState.attached ∧ s.attached_at = extractTimestamp attachCompA :=
  c10_complete_only [] [] attachCompA imsiA (by decide)
    (none_ne_some (by decide) imsiA)
    (fun apn => none_ne_some (by decide) (imsiA, apn))
    (fun l hl ev => absurd hl (List.not_mem_nil l))
    (fun l hl => absurd hl (List.not_mem_nil l))

end MME
